import Mathlib

/-! # Fish movement prototype: kinematics, hook animation and cast state machine

A shallow embedding of `script_20250923092735.js`.  JavaScript numbers are
modelled by exact rationals (`ℚ`), so every statement below is about the
program in exact arithmetic.  Everything the script reads from the browser
(viewport size, bounding rectangles, the clock, `Math.random`) is collected in
`Env`; the module-level `let` variables and the style properties the script
writes are the fields of `State`.
-/

namespace FdGame

/-! ## Data model -/

/-- A bounding rectangle as returned by `getBoundingClientRect()`. -/
structure Rect where
  left : ℚ
  top : ℚ
  width : ℚ
  height : ℚ
  deriving DecidableEq

/-- What the browser reports while one handler runs. `innerWidth` is
positive in a real window (the script divides by it). -/
structure Env where
  /-- Value of `window.innerWidth` -/
  innerWidth : ℚ
  /-- Value of `window.innerHeight` -/
  innerHeight : ℚ
  /-- Value of `(sprite || fish).getBoundingClientRect().height`; `none` when the call throws. -/
  fishRectHeight : Option ℚ
  /-- Value of `boat.getBoundingClientRect()` -/
  boatRect : Rect
  /-- Value of `hookEl.getBoundingClientRect()` as measured in the jig branch of `animateHook`. -/
  hookRect : Rect
  /-- Value of `hookEl.getBoundingClientRect()` as measured in the forward branch of `stepCast`. -/
  castHookRect : Rect
  /-- Value of `performance.now()` -/
  now : ℚ
  /-- First `Math.random()` draw of the frame (re-target threshold). -/
  random1 : ℚ
  /-- Second `Math.random()` draw of the frame (hop size). -/
  random2 : ℚ

/-- Which of the elements looked up at start-up exist. -/
structure Dom where
  sprite : Bool
  boat : Bool
  lineEl : Bool
  hookEl : Bool
  armPath : Bool
  rodPath : Bool
  /-- The `try` block that builds `rodGroup` ran without throwing. -/
  svgOk : Bool
  deriving DecidableEq

/-- Values of `hookState.phase`. -/
inductive HookPhase where
  | drop
  | jig
  deriving DecidableEq, Repr

/-- The object `hookState`. -/
structure HookState where
  phase : HookPhase
  targetY : ℚ
  lastChange : ℚ
  deriving DecidableEq

/-- Values of `castPhase`. -/
inductive CastPhase where
  | idle
  | windup
  | forward
  | settle
  deriving DecidableEq, Repr

/-- Values the script gives to `fish.style.transform`. -/
inductive FishPose where
  /-- Not written by the script yet -/
  | unset
  /-- Pose `translateY(-50%) scale(1.04) rotate(-3deg)` -/
  | surge
  /-- Pose `translateY(-50%)` -/
  | rest
  deriving DecidableEq, Repr

/-- The module-level variables of the script together with the style
properties it writes (`none`: not written yet). -/
structure State where
  dom : Dom
  speedIndex : ℕ
  /-- Direction: `1` = left→right, `-1` = right→left -/
  dir : ℤ
  /-- Signed pixels/frame after scaling -/
  speed : ℚ
  x : ℚ
  y : ℚ
  vy : ℚ
  spacePressed : Bool
  paused : Bool
  hookState : HookState
  /-- Value of `FEATURES.casting` -/
  casting : Bool
  /-- Value of `rodGroup !== null` -/
  rodGroup : Bool
  hasCastOnce : Bool
  castPhase : CastPhase
  castStartAt : ℚ
  /-- Whether `sprite.classList` contains `face-left` -/
  faceLeft : Bool
  /-- Whether `sprite.classList` contains `face-right` -/
  faceRight : Bool
  /-- Value of `fish.style.left` -/
  fishLeft : Option ℚ
  /-- Value of `fish.style.top` -/
  fishTop : Option ℚ
  /-- Value of `fish.style.transform` -/
  fishPose : FishPose
  /-- Value of `lineEl.style.height` -/
  lineHeight : Option ℚ
  /-- Value of `hookEl.style.left` -/
  hookLeft : Option ℚ
  /-- Value of `hookEl.style.top` -/
  hookTop : Option ℚ
  /-- Angle (degrees) of `rodGroup.style.transform = rotate(..deg)` -/
  rodAngle : Option ℚ
  /-- Flag this run of the script wrote to `localStorage` under `fd_casting`
  (`none`: nothing written by this run) -/
  storedCasting : Option Bool
  /-- Whether this run of the script has called `location.reload()` -/
  reloadRequested : Bool
  deriving DecidableEq

/-! ## Tunables and fish kinematics -/

/-- Constant `const BASE_SPEEDS = [1, 3, 6]` -/
def BASE_SPEEDS : List ℚ := [1, 3, 6]

/-- Function `getFishHalfHeight()`: `Math.max(8, (rect.height || 32) / 2)`, or `16`
when measuring throws. -/
def getFishHalfHeight (e : Env) : ℚ :=
  match e.fishRectHeight with
  | some h => max 8 ((if h = 0 then 32 else h) / 2)
  | none => 16

/-- Function `scale()`: `Math.max(0.8, Math.min(2.0, window.innerWidth / 1200))` -/
def scale (e : Env) : ℚ := max 0.8 (min 2.0 (e.innerWidth / 1200))

/-- Function `gravity()` -/
def gravity (e : Env) : ℚ := 0.12 * scale e

/-- Function `maxFall()` -/
def maxFall (e : Env) : ℚ := 3.0 * scale e

/-- Function `maxRise()` -/
def maxRise (e : Env) : ℚ := -4.0 * scale e

/-- Function `wrapX(nx)` -/
def wrapX (e : Env) (nx : ℚ) : ℚ :=
  let w := e.innerWidth
  if nx > w then nx - w
  else if nx < 0 then nx + w
  else nx

/-- Function `updateSpeed()`. An index outside `BASE_SPEEDS` (which no handler
produces) reads as `0` here. -/
def updateSpeed (e : Env) (s : State) : State :=
  let s1 := { s with speed := (s.dir : ℚ) * (BASE_SPEEDS.getD s.speedIndex 0 * scale e) }
  if s1.dom.sprite then
    if s1.dir = 1 then { s1 with faceLeft := false, faceRight := true }
    else { s1 with faceRight := false, faceLeft := true }
  else s1

/-! ## Casting (guarded by feature flag) -/

/-- Function `getBoatSectionIndex()` -/
def getBoatSectionIndex (e : Env) : ℤ :=
  let sections : ℤ := 10
  let boatRect := e.boatRect
  let centerX := boatRect.left + boatRect.width / 2
  let w := e.innerWidth
  min (sections - 1) (max 0 ⌊(centerX / w) * sections⌋)

/-- Function `startCast(now)` -/
def startCast (e : Env) (now : ℚ) (s : State) : State :=
  if s.hasCastOnce || !s.rodGroup then s
  else
    let sectionIdx := getBoatSectionIndex e
    if sectionIdx ≥ 8 then s
    else { s with hasCastOnce := true, castPhase := CastPhase.windup, castStartAt := now }

/-- Function `stepCast(now)` -/
def stepCast (e : Env) (now : ℚ) (s : State) : State :=
  if s.castPhase = CastPhase.idle || !s.rodGroup then s
  else
    let t := now - s.castStartAt
    match s.castPhase with
    | CastPhase.windup =>
      let dur : ℚ := 380
      let k := min 1 (t / dur)
      let angle := -35 * (1 - (1 - k) ^ 3)
      let s1 := { s with rodAngle := some angle }
      if k ≥ 1 then { s1 with castPhase := CastPhase.forward, castStartAt := now } else s1
    | CastPhase.forward =>
      let dur : ℚ := 240
      let k := min 1 (t / dur)
      let angle := (-35) + 50 * (1 - (1 - k) ^ 3)
      let s1 := { s with rodAngle := some angle }
      let sectionIdx := getBoatSectionIndex e
      let w := e.innerWidth
      let sectionW := w / 10
      let targetX := min (((sectionIdx : ℚ) + 2 + 0.5) * sectionW) (w - 20)
      let boatRect := e.boatRect
      let curr := e.castHookRect
      let nx := (curr.left + (targetX - curr.left) * (1 - (1 - k) ^ 3)) - boatRect.left - 16
      let s2 := { s1 with hookLeft := some nx }
      if k ≥ 1 then { s2 with castPhase := CastPhase.settle, castStartAt := now } else s2
    | CastPhase.settle =>
      let dur : ℚ := 280
      let k := min 1 (t / dur)
      let angle := 15 - 15 * (1 - (1 - k) ^ 3)
      let s1 := { s with rodAngle := some angle }
      if k ≥ 1 then { s1 with castPhase := CastPhase.idle, rodAngle := some 0 } else s1
    | CastPhase.idle => s

/-! ## Fishing line + hook motion -/

/-- Function `animateHook()` -/
def animateHook (e : Env) (s : State) : State :=
  if !s.dom.lineEl || !s.dom.hookEl then s
  else
    let now := e.now
    let waterTop := e.innerHeight / 6
    let bottom := e.innerHeight - 4
    let boatRect := e.boatRect
    let rodTipX := boatRect.left + 110
    let rodTipY := boatRect.top + 14
    let HOOK_EYE_X : ℚ := 16
    let HOOK_EYE_Y : ℚ := 2
    if s.hookState.phase = HookPhase.drop then
      let s1 := { s with
        lineHeight := some (bottom - rodTipY)
        hookLeft := some (rodTipX - boatRect.left - HOOK_EYE_X)
        hookTop := some (rodTipY - boatRect.top + (bottom - rodTipY) - (HOOK_EYE_Y + 2))
        hookState := { phase := HookPhase.jig, lastChange := now, targetY := bottom - 30 } }
      if s1.casting then startCast e now s1 else s1
    else
      let hookRect := e.hookRect
      let hookY := hookRect.top + hookRect.height / 2
      let hs : HookState :=
        if now - s.hookState.lastChange > 600 + e.random1 * 600 then
          { s.hookState with
            targetY := max (waterTop + 60) (hookY - (30 + e.random2 * 60))
            lastChange := now }
        else s.hookState
      let dy := (hs.targetY - hookY) * 0.14
      let newTop := hookY + dy
      let maxTop := bottom - 12
      let clampedTop := min maxTop (max (waterTop + 40) newTop)
      let newHookTop := clampedTop - hookRect.height / 2
      let hookEyePageY := newHookTop + HOOK_EYE_Y
      let visibleHeight := max 0 (hookEyePageY - rodTipY)
      let s1 := { s with
        hookState := hs
        hookLeft := some (rodTipX - boatRect.left - HOOK_EYE_X)
        hookTop := some (newHookTop - boatRect.top)
        lineHeight := some visibleHeight }
      if s1.casting then stepCast e now s1 else s1

/-! ## Frame loop and event handlers -/

/-- Function `loop()`: one animation frame. -/
def loop (e : Env) (s : State) : State :=
  if s.paused then s
  else
    let x := wrapX e (s.x + s.speed)
    let vy :=
      if s.spacePressed then max (maxRise e) (s.vy - 0.45 * scale e)
      else min (maxFall e) (s.vy + gravity e)
    let waterlineY := e.innerHeight / 6
    let halfH := getFishHalfHeight e
    let topClamp := max 0 (waterlineY + halfH + 1)
    let bottomClamp := e.innerHeight - 40
    let y := max topClamp (min bottomClamp (s.y + vy))
    animateHook e { s with x := x, vy := vy, y := y, fishLeft := some x, fishTop := some y }

/-- State right after the module-level declarations, before the `// Init`
block; `casting` is the value read from the URL or `localStorage`. -/
def initialState (e : Env) (dom : Dom) (casting : Bool) : State :=
  { dom := dom
    speedIndex := 0
    dir := 1
    speed := BASE_SPEEDS.getD 0 0
    x := 24
    y := e.innerHeight * 0.5
    vy := 0
    spacePressed := false
    paused := false
    hookState := { phase := HookPhase.drop, targetY := 0, lastChange := 0 }
    casting := casting
    rodGroup := dom.boat && casting && dom.armPath && dom.rodPath && dom.svgOk
    hasCastOnce := false
    castPhase := CastPhase.idle
    castStartAt := 0
    faceLeft := false
    faceRight := false
    fishLeft := none
    fishTop := none
    fishPose := FishPose.unset
    lineHeight := none
    hookLeft := none
    hookTop := none
    rodAngle := none
    storedCasting := none
    reloadRequested := false }

/-- The `// Init` block: `updateSpeed()`, face right, first `loop()`. -/
def start (e : Env) (dom : Dom) (casting : Bool) : State :=
  let s := updateSpeed e (initialState e dom casting)
  let s1 := if s.dom.sprite then { s with faceRight := true } else s
  loop e s1

/-- Both `keydown` listeners, in registration order: the `'C'` toggle and
the `switch (e.key)` of the fish controls, which has no case for `'C'`.
The toggle flips `FEATURES.casting`, stores the new value and calls
`location.reload()`; every other variable of the running page is left as
it is. The page that loads afterwards is a new run of the script, which
begins at `start` with the flag read afresh from the URL and
`localStorage`. -/
def keydown (e : Env) (key : String) (s : State) : State :=
  if key = "C" then
    { s with
      casting := !s.casting
      storedCasting := some (!s.casting)
      reloadRequested := true }
  else if key = " " then
    if !s.spacePressed then
      { s with
        spacePressed := true
        vy := max (maxRise e) (s.vy - 2.2 * scale e)
        fishPose := FishPose.surge }
    else s
  else if key = "p" then { s with paused := !s.paused }
  else if key = "ArrowRight" then
    let s1 :=
      if s.dir = 1 then
        { s with speedIndex := min (BASE_SPEEDS.length - 1) (s.speedIndex + 1) }
      else if s.speedIndex > 0 then { s with speedIndex := s.speedIndex - 1 }
      else { s with dir := 1, speedIndex := 0 }
    updateSpeed e s1
  else if key = "ArrowLeft" then
    let s1 :=
      if s.dir = -1 then
        { s with speedIndex := min (BASE_SPEEDS.length - 1) (s.speedIndex + 1) }
      else if s.speedIndex > 0 then { s with speedIndex := s.speedIndex - 1 }
      else { s with dir := -1, speedIndex := 0 }
    updateSpeed e s1
  else s

/-- The `keyup` listener. -/
def keyup (key : String) (s : State) : State :=
  if key = " " then { s with spacePressed := false, fishPose := FishPose.rest }
  else s

/-- The `resize` listener; `e` is the environment after the resize. -/
def resize (e : Env) (s : State) : State :=
  let x := min s.x (e.innerWidth - 40)
  let waterlineY := e.innerHeight / 6
  let halfH := getFishHalfHeight e
  let topClamp := max 0 (waterlineY + halfH + 1)
  let bottomClamp := e.innerHeight - 40
  let y := max topClamp (min bottomClamp s.y)
  let s1 := updateSpeed e { s with x := x, y := y }
  if s1.dom.lineEl && s1.dom.boat then
    let bottom := e.innerHeight - 4
    let boatRect := e.boatRect
    let rodTipY := boatRect.top + 14
    { s1 with lineHeight := some (bottom - rodTipY) }
  else s1

/-- One horizontal update `x = wrapX(x + speed)` with the speed held fixed. -/
def stepX (e : Env) (speed : ℚ) (x : ℚ) : ℚ := wrapX e (x + speed)

/-- Events the page can deliver, each with the environment seen while its
handler runs. -/
inductive Event where
  | keydown (e : Env) (key : String)
  | keyup (key : String)
  | frame (e : Env)
  | resize (e : Env)

/-- Run the handler of one event. -/
def Event.apply (s : State) : Event → State
  | Event.keydown e key => FdGame.keydown e key s
  | Event.keyup key => FdGame.keyup key s
  | Event.frame e => loop e s
  | Event.resize e => FdGame.resize e s

/-- Run the handlers of a sequence of events, oldest first. -/
def run (s : State) (evs : List Event) : State := evs.foldl Event.apply s

/-- Environment seen by an event's handler (`keyup` reads none). -/
def Event.env? : Event → Option Env
  | Event.keydown e _ => some e
  | Event.keyup _ => none
  | Event.frame e => some e
  | Event.resize e => some e

/-- An environment with the given viewport size; the fish measures 32px
high, the boat is 160x80 at the page origin, the clock reads `0`. -/
def viewport (w h : ℚ) : Env :=
  { innerWidth := w
    innerHeight := h
    fishRectHeight := some 32
    boatRect := { left := 0, top := 0, width := 160, height := 80 }
    hookRect := { left := 94, top := 0, width := 24, height := 36 }
    castHookRect := { left := 94, top := 0, width := 24, height := 36 }
    now := 0
    random1 := 0
    random2 := 0 }

/-- A page with only the fish (no sprite, boat, line or hook). -/
def fishOnly : Dom :=
  { sprite := false, boat := false, lineEl := false, hookEl := false,
    armPath := false, rodPath := false, svgOk := false }

/-- A page with every element present. -/
def fullDom : Dom :=
  { sprite := true, boat := true, lineEl := true, hookEl := true,
    armPath := true, rodPath := true, svgOk := true }

/-- A page with the boat, line and hook but no `#arm` path, so that
`rodGroup` stays `null` even with the casting flag on. -/
def noArmDom : Dom :=
  { sprite := true, boat := true, lineEl := true, hookEl := true,
    armPath := false, rodPath := true, svgOk := true }

/-- A call of one of the two cast functions, with the environment it sees
and its `now` argument. -/
inductive CastCall where
  | start (e : Env) (now : ℚ)
  | step (e : Env) (now : ℚ)

/-- Run one cast call. -/
def CastCall.apply (s : State) : CastCall → State
  | CastCall.start e now => startCast e now s
  | CastCall.step e now => stepCast e now s

/-- Run a sequence of cast calls, oldest first. -/
def runCast (s : State) (calls : List CastCall) : State := calls.foldl CastCall.apply s

/-- Number of calls in the sequence that take `castPhase` from a value
other than `windup` to `windup`. -/
def windupEntries (s : State) : List CastCall → ℕ
  | [] => 0
  | c :: cs =>
    (if s.castPhase ≠ CastPhase.windup ∧ (c.apply s).castPhase = CastPhase.windup then 1 else 0)
      + windupEntries (c.apply s) cs

/-- The hook and cast variables (and the styles the hook code writes) of
`t` are those of `s`. -/
def SameRig (s t : State) : Prop :=
  t.dom = s.dom ∧ t.hookState = s.hookState ∧ t.casting = s.casting ∧
  t.rodGroup = s.rodGroup ∧ t.hasCastOnce = s.hasCastOnce ∧ t.castPhase = s.castPhase ∧
  t.castStartAt = s.castStartAt ∧ t.hookLeft = s.hookLeft ∧ t.hookTop = s.hookTop ∧
  t.rodAngle = s.rodAngle

/-- A cast can only be under way when the rod group exists. -/
def CastWired (s : State) : Prop := s.castPhase ≠ CastPhase.idle → s.rodGroup = true

/-- No rod group was built, and no cast is under way or has fired. -/
def NoRodIdle (s : State) : Prop :=
  s.rodGroup = false ∧ s.castPhase = CastPhase.idle ∧ s.hasCastOnce = false

/-- State after the assignments of the `drop` branch of `animateHook`
(lines 176-182 of the script), before its `if (FEATURES.casting)
startCast(now)`. -/
def hookDropped (e : Env) (s : State) : State :=
  let now := e.now
  let bottom := e.innerHeight - 4
  let boatRect := e.boatRect
  let rodTipX := boatRect.left + 110
  let rodTipY := boatRect.top + 14
  let HOOK_EYE_X : ℚ := 16
  let HOOK_EYE_Y : ℚ := 2
  { s with
    lineHeight := some (bottom - rodTipY)
    hookLeft := some (rodTipX - boatRect.left - HOOK_EYE_X)
    hookTop := some (rodTipY - boatRect.top + (bottom - rodTipY) - (HOOK_EYE_Y + 2))
    hookState := { phase := HookPhase.jig, lastChange := now, targetY := bottom - 30 } }

/-- A full page at 1200x800 with the flag on and a cast under way: phase
`ph`, begun at time `t0`. -/
def castingAt (ph : CastPhase) (t0 : ℚ) : State :=
  { initialState (viewport 1200 800) fullDom true with
    hasCastOnce := true, castPhase := ph, castStartAt := t0 }

/-- Number of calls, in a sequence of `animateHook` calls (one per
environment), that run the `drop` branch. -/
def dropRuns (s : State) : List Env → ℕ
  | [] => 0
  | e :: es =>
    (if s.dom.lineEl = true ∧ s.dom.hookEl = true ∧ s.hookState.phase = HookPhase.drop
      then 1 else 0) + dropRuns (animateHook e s) es

/-- The `hookState` a jig frame continues with (lines 188-193 of the
script): re-targeted when the time since `lastChange` exceeds the random
threshold, unchanged otherwise. -/
def jigRetarget (e : Env) (hs : HookState) : HookState :=
  let waterTop := e.innerHeight / 6
  let hookRect := e.hookRect
  let hookY := hookRect.top + hookRect.height / 2
  if e.now - hs.lastChange > 600 + e.random1 * 600 then
    { hs with
      targetY := max (waterTop + 60) (hookY - (30 + e.random2 * 60))
      lastChange := e.now }
  else hs

/-- The `clampedTop` of a jig frame (lines 194-198 of the script) for a
given target. -/
def jigClampedTop (e : Env) (targetY : ℚ) : ℚ :=
  let waterTop := e.innerHeight / 6
  let bottom := e.innerHeight - 4
  let hookRect := e.hookRect
  let hookY := hookRect.top + hookRect.height / 2
  let dy := (targetY - hookY) * 0.14
  let newTop := hookY + dy
  let maxTop := bottom - 12
  min maxTop (max (waterTop + 40) newTop)

/-- Conditions on what a handler sees under which the hook target stays in
its band for viewport height `h`: the viewport is `h` high, the hop draw
lies in `[0, 1)` as `Math.random()` promises, and the measured hook centre
is at most `bottom + 18` (the Drop placement puts an 36px hook at
`bottom + 14`, the jig clamp at most at `bottom - 12`). -/
def HookEnvOk (h : ℚ) (e : Env) : Prop :=
  e.innerHeight = h ∧ 0 ≤ e.random2 ∧ e.random2 < 1 ∧
    e.hookRect.top + e.hookRect.height / 2 ≤ h - 4 + 18

/-- The hook is jigging with its target in the band
`[waterline + 60, bottom - 12]` of a viewport `h` high. -/
def TargetInBand (h : ℚ) (s : State) : Prop :=
  s.dom.lineEl = true ∧ s.dom.hookEl = true ∧ s.hookState.phase = HookPhase.jig ∧
    h / 6 + 60 ≤ s.hookState.targetY ∧ s.hookState.targetY ≤ h - 4 - 12

/-- Cubic ease-out in the spec's words: `ease(k) = 1 - (1 - k)^3`. -/
def ease (k : ℚ) : ℚ := 1 - (1 - k) ^ 3

/-- Rod angle in the spec's words, for a cast phase and the time `t`
elapsed since the phase began, with `k = min(1, t / duration)`. -/
def specRodAngle (ph : CastPhase) (t : ℚ) : ℚ :=
  match ph with
  | CastPhase.windup => -35 * ease (min 1 (t / 380))
  | CastPhase.forward => -35 + 50 * ease (min 1 (t / 240))
  | CastPhase.settle => 15 - 15 * ease (min 1 (t / 280))
  | CastPhase.idle => 0

/-- The `targetX` of the forward phase of `stepCast` (lines 243-245 of the
script). -/
def castTargetX (e : Env) : ℚ :=
  let sectionIdx := getBoatSectionIndex e
  let w := e.innerWidth
  let sectionW := w / 10
  min (((sectionIdx : ℚ) + 2 + 0.5) * sectionW) (w - 20)

/-- Viewport width in force after a sequence of events of a session that
began at width `w`: only a `resize` changes it. -/
def widthAfter (w : ℚ) : List Event → ℚ
  | [] => w
  | Event.resize e :: evs => widthAfter e.innerWidth evs
  | Event.keydown _ _ :: evs => widthAfter w evs
  | Event.keyup _ :: evs => widthAfter w evs
  | Event.frame _ :: evs => widthAfter w evs

/-- The events of a session that began at viewport width `w`: every
handler sees the width in force, which only a `resize` changes, and every
resize is to a width of at least 40. -/
def WidthsOk (w : ℚ) : List Event → Prop
  | [] => True
  | Event.resize e :: evs => 40 ≤ e.innerWidth ∧ WidthsOk e.innerWidth evs
  | Event.keydown e _ :: evs => e.innerWidth = w ∧ WidthsOk w evs
  | Event.keyup _ :: evs => WidthsOk w evs
  | Event.frame e :: evs => e.innerWidth = w ∧ WidthsOk w evs

/-- The fish is within the closed interval `[0, w]` and its speed is one
the script can have stored: direction `1` or `-1`, index at most 2, and
`|speed| ≤ 12` (the largest table entry times the largest scale). -/
def FishInView (w : ℚ) (s : State) : Prop :=
  0 ≤ s.x ∧ s.x ≤ w ∧ |s.speed| ≤ 12 ∧ (s.dir = 1 ∨ s.dir = -1) ∧ s.speedIndex ≤ 2

/-! ## Frame lemmas: what the hook and cast code leaves alone -/

theorem startCast_fish (e : Env) (now : ℚ) (s : State) :
    (startCast e now s).x = s.x ∧ (startCast e now s).y = s.y ∧
    (startCast e now s).vy = s.vy ∧ (startCast e now s).speed = s.speed ∧
    (startCast e now s).dir = s.dir ∧ (startCast e now s).speedIndex = s.speedIndex ∧
    (startCast e now s).spacePressed = s.spacePressed ∧
    (startCast e now s).paused = s.paused := by
  unfold startCast
  dsimp only
  split_ifs <;> simp

theorem stepCast_fish (e : Env) (now : ℚ) (s : State) :
    (stepCast e now s).x = s.x ∧ (stepCast e now s).y = s.y ∧
    (stepCast e now s).vy = s.vy ∧ (stepCast e now s).speed = s.speed ∧
    (stepCast e now s).dir = s.dir ∧ (stepCast e now s).speedIndex = s.speedIndex ∧
    (stepCast e now s).spacePressed = s.spacePressed ∧
    (stepCast e now s).paused = s.paused := by
  unfold stepCast
  dsimp only
  by_cases h : (decide (s.castPhase = CastPhase.idle) || !s.rodGroup) = true
  · rw [if_pos h]; simp
  · rw [if_neg h]
    split <;> (try split_ifs) <;> simp

theorem animateHook_fish (e : Env) (s : State) :
    (animateHook e s).x = s.x ∧ (animateHook e s).y = s.y ∧
    (animateHook e s).vy = s.vy ∧ (animateHook e s).speed = s.speed ∧
    (animateHook e s).dir = s.dir ∧ (animateHook e s).speedIndex = s.speedIndex ∧
    (animateHook e s).spacePressed = s.spacePressed ∧
    (animateHook e s).paused = s.paused := by
  unfold animateHook
  dsimp only
  split_ifs <;>
    first
    | exact ⟨rfl, rfl, rfl, rfl, rfl, rfl, rfl, rfl⟩
    | exact startCast_fish e e.now _
    | exact stepCast_fish e e.now _

/-! ## What one frame does to the fish -/

theorem loop_of_paused (e : Env) (s : State) (hp : s.paused = true) : loop e s = s := by
  unfold loop
  rw [if_pos hp]

theorem loop_x (e : Env) (s : State) (hp : s.paused = false) :
    (loop e s).x = wrapX e (s.x + s.speed) := by
  unfold loop
  rw [if_neg (by simp [hp])]
  exact (animateHook_fish e _).1

theorem loop_vy (e : Env) (s : State) (hp : s.paused = false) :
    (loop e s).vy =
      if s.spacePressed then max (maxRise e) (s.vy - 0.45 * scale e)
      else min (maxFall e) (s.vy + gravity e) := by
  unfold loop
  rw [if_neg (by simp [hp])]
  exact (animateHook_fish e _).2.2.1

theorem loop_y (e : Env) (s : State) (hp : s.paused = false) :
    (loop e s).y =
      max (max 0 (e.innerHeight / 6 + getFishHalfHeight e + 1))
        (min (e.innerHeight - 40) (s.y + (loop e s).vy)) := by
  rw [loop_vy e s hp]
  unfold loop
  rw [if_neg (by simp [hp])]
  exact (animateHook_fish e _).2.1

theorem getFishHalfHeight_ge (e : Env) : 8 ≤ getFishHalfHeight e := by
  unfold getFishHalfHeight
  split
  · exact le_max_left _ _
  · norm_num

theorem scale_bounds (e : Env) : 0.8 ≤ scale e ∧ scale e ≤ 2.0 := by
  unfold scale
  constructor
  · exact le_max_left _ _
  · exact max_le (by norm_num) (min_le_left _ _)

theorem scale_pos (e : Env) : 0 < scale e :=
  lt_of_lt_of_le (by norm_num) (scale_bounds e).1

/-! ## Horizontal wrap -/

/-- C1 (as amended): for a viewport of width `w > 0`, a position
`0 ≤ x < w` and a signed speed with `|s| ≤ w`, the update `wrapX(x + s)`
lies in the closed interval `[0, w]` (the right end included: `wrapX`
wraps only when `nx > w`). -/
theorem wrapX_step_range (e : Env) (x s : ℚ)
    (hx0 : 0 ≤ x) (hxw : x < e.innerWidth) (hs : |s| ≤ e.innerWidth) :
    0 ≤ wrapX e (x + s) ∧ wrapX e (x + s) ≤ e.innerWidth := by
  have hs' := abs_le.mp hs
  unfold wrapX
  dsimp only
  split_ifs with h1 h2
  · exact ⟨by linarith, by linarith⟩
  · exact ⟨by linarith, by linarith⟩
  · push_neg at h1 h2
    exact ⟨h2, h1⟩

/-- Witness for C1: width 1200, x = 24, speed 3. -/
theorem wrapX_step_range_witness :
    0 ≤ wrapX (viewport 1200 800) (24 + 3) ∧
      wrapX (viewport 1200 800) (24 + 3) ≤ (viewport 1200 800).innerWidth :=
  wrapX_step_range (viewport 1200 800) 24 3
    (by norm_num) (by norm_num [viewport]) (by norm_num [viewport, abs_le])

/-- C1 fails as stated: at width 1200 the fish at `x = 1197` moving right
at speed 3 lands on `x = 1200`, which is not below the width; and with a
speed of three viewport widths the fish at `x = 0` lands on `2400`. -/
theorem wrapX_half_open_counterexample :
    (0 < (viewport 1200 800).innerWidth ∧ (0 : ℚ) ≤ 1197 ∧
        1197 < (viewport 1200 800).innerWidth ∧
        ¬ wrapX (viewport 1200 800) (1197 + 3) < (viewport 1200 800).innerWidth) ∧
      ¬ wrapX (viewport 1200 800) (0 + 3600) < (viewport 1200 800).innerWidth := by
  norm_num [wrapX, viewport]

/-! ## Vertical clamp -/

/-- C2 (as amended): after one unpaused frame the fish is never above the
top clamp, `h/6 + halfH + 1 ≤ y`, for every viewport height; and
`y ≤ h - 40` holds whenever the clamp band is not empty, that is when
`h/6 + halfH + 1 ≤ h - 40` (the top clamp is applied last and wins
otherwise). -/
theorem loop_y_clamp (e : Env) (s : State) (hp : s.paused = false) :
    e.innerHeight / 6 + getFishHalfHeight e + 1 ≤ (loop e s).y ∧
      (e.innerHeight / 6 + getFishHalfHeight e + 1 ≤ e.innerHeight - 40 →
        (loop e s).y ≤ e.innerHeight - 40) := by
  rw [loop_y e s hp]
  constructor
  · exact le_trans (le_max_right _ _) (le_max_left _ _)
  · intro hfit
    have h8 := getFishHalfHeight_ge e
    refine max_le (max_le ?_ hfit) (min_le_left _ _)
    linarith

/-- Witness for C2: an 800px-high viewport, from the initial state. -/
theorem loop_y_clamp_witness :
    (viewport 1200 800).innerHeight / 6 + getFishHalfHeight (viewport 1200 800) + 1 ≤
        (loop (viewport 1200 800) (initialState (viewport 1200 800) fullDom false)).y ∧
      (loop (viewport 1200 800) (initialState (viewport 1200 800) fullDom false)).y ≤
        (viewport 1200 800).innerHeight - 40 :=
  ⟨(loop_y_clamp (viewport 1200 800) (initialState (viewport 1200 800) fullDom false) rfl).1,
    (loop_y_clamp (viewport 1200 800) (initialState (viewport 1200 800) fullDom false) rfl).2
      (by norm_num [viewport, getFishHalfHeight])⟩

/-- C2 fails as stated: in a 60px-high viewport (fish 32px high, so
`halfH = 16`) the top clamp is `27` and the bottom clamp is `20`; one frame
from the initial state leaves the fish at `y = 27 > 60 - 40`. -/
theorem loop_y_upper_counterexample :
    (loop (viewport 1200 60) (initialState (viewport 1200 60) fishOnly false)).y = 27 ∧
      ¬ (loop (viewport 1200 60) (initialState (viewport 1200 60) fishOnly false)).y ≤
          (viewport 1200 60).innerHeight - 40 := by
  have hy := loop_y (viewport 1200 60) (initialState (viewport 1200 60) fishOnly false) rfl
  have hv := loop_vy (viewport 1200 60) (initialState (viewport 1200 60) fishOnly false) rfl
  rw [hv] at hy
  have h27 : (loop (viewport 1200 60) (initialState (viewport 1200 60) fishOnly false)).y = 27 := by
    rw [hy]
    norm_num [viewport, initialState, getFishHalfHeight, maxFall, gravity, scale]
  refine ⟨h27, ?_⟩
  rw [h27]
  norm_num [viewport]

/-! ## Wrap round trip -/

theorem stepX_iterate_right (e : Env) (x s : ℚ) (hs0 : 0 < s) (hsw : s ≤ e.innerWidth)
    (hx0 : 0 ≤ x) (hxw : x ≤ e.innerWidth) (k : ℕ) :
    ∃ m : ℤ, (stepX e s)^[k] x = x + k * s - m * e.innerWidth ∧
      0 ≤ (stepX e s)^[k] x ∧ (stepX e s)^[k] x ≤ e.innerWidth ∧
      (0 < k → 0 < (stepX e s)^[k] x) := by
  induction k with
  | zero => exact ⟨0, by simp, by simpa using hx0, by simpa using hxw, by simp⟩
  | succ k ih =>
    obtain ⟨m, hm, h0, hw, _⟩ := ih
    rw [Function.iterate_succ_apply']
    generalize (stepX e s)^[k] x = v at hm h0 hw
    unfold stepX wrapX
    dsimp only
    split_ifs with h1 h2
    · refine ⟨m + 1, ?_, by linarith, by linarith, fun _ => by linarith⟩
      push_cast
      rw [hm]; ring
    · exact absurd h2 (by linarith)
    · refine ⟨m, ?_, by linarith, by linarith, fun _ => by linarith⟩
      push_cast
      rw [hm]; ring

theorem stepX_iterate_left (e : Env) (x s : ℚ) (hs0 : s < 0) (hsw : -e.innerWidth ≤ s)
    (hx0 : 0 ≤ x) (hxw : x < e.innerWidth) (k : ℕ) :
    ∃ m : ℤ, (stepX e s)^[k] x = x + k * s + m * e.innerWidth ∧
      0 ≤ (stepX e s)^[k] x ∧ (stepX e s)^[k] x < e.innerWidth := by
  induction k with
  | zero => exact ⟨0, by simp, by simpa using hx0, by simpa using hxw⟩
  | succ k ih =>
    obtain ⟨m, hm, h0, hw⟩ := ih
    rw [Function.iterate_succ_apply']
    generalize (stepX e s)^[k] x = v at hm h0 hw
    unfold stepX wrapX
    dsimp only
    split_ifs with h1 h2
    · exact absurd h1 (by linarith)
    · refine ⟨m + 1, ?_, by linarith, by linarith⟩
      push_cast
      rw [hm]; ring
    · refine ⟨m, ?_, by linarith, by linarith⟩
      push_cast
      rw [hm]; ring

/-- C3 (as amended): let `w > 0`, `0 ≤ x < w`, and let the non-zero signed
speed `s` satisfy `n * |s| = w` for a positive integer `n`. Applying
`x := wrapX(x + s)` exactly `n` times returns `x` to its original value
whenever `x > 0` or `s < 0`; from `x = 0` with `s > 0` the `n` steps end on
`w` (the same point of the torus, one width further), because `wrapX` does
not wrap `nx = w`. -/
theorem stepX_round_trip (e : Env) (x s : ℚ) (n : ℕ) (hx0 : 0 ≤ x)
    (hxw : x < e.innerWidth) (hn : 0 < n) (hs : (n : ℚ) * |s| = e.innerWidth) :
    (0 < x ∨ s < 0 → (stepX e s)^[n] x = x) ∧
      (x = 0 → 0 < s → (stepX e s)^[n] x = e.innerWidth) := by
  have hw : 0 < e.innerWidth := lt_of_le_of_lt hx0 hxw
  have hn1 : (1 : ℚ) ≤ n := by exact_mod_cast hn
  have habs : |s| ≤ e.innerWidth := by
    rw [← hs]; nlinarith [abs_nonneg s]
  have right : 0 < s → ∃ m : ℤ, (stepX e s)^[n] x = x + e.innerWidth - m * e.innerWidth ∧
      0 < (stepX e s)^[n] x ∧ (stepX e s)^[n] x ≤ e.innerWidth := by
    intro hs0
    rw [abs_of_pos hs0] at hs habs
    obtain ⟨m, hm, _, h2, h3⟩ := stepX_iterate_right e x s hs0 habs hx0 hxw.le n
    exact ⟨m, by rw [hm, hs], h3 hn, h2⟩
  constructor
  · intro hcase
    rcases lt_trichotomy s 0 with hneg | hzero | hpos
    · rw [abs_of_neg hneg] at hs habs
      obtain ⟨m, hm, h1, h2⟩ := stepX_iterate_left e x s hneg (by linarith) hx0 hxw n
      have hm' : (stepX e s)^[n] x = x - e.innerWidth + m * e.innerWidth := by
        rw [hm]; linarith
      rw [hm'] at h1 h2 ⊢
      rcases lt_trichotomy m 1 with h | h | h
      · have : (m : ℚ) ≤ 0 := by exact_mod_cast (by omega : m ≤ 0)
        nlinarith
      · subst h; push_cast; ring
      · have : (2 : ℚ) ≤ m := by exact_mod_cast (by omega : 2 ≤ m)
        nlinarith
    · subst hzero
      simp at hs
      linarith
    · have hx : 0 < x := by
        rcases hcase with h | h
        · exact h
        · linarith
      obtain ⟨m, hm, h1, h2⟩ := right hpos
      rw [hm] at h1 h2 ⊢
      rcases lt_trichotomy m 1 with h | h | h
      · have : (m : ℚ) ≤ 0 := by exact_mod_cast (by omega : m ≤ 0)
        nlinarith
      · subst h; push_cast; ring
      · have : (2 : ℚ) ≤ m := by exact_mod_cast (by omega : 2 ≤ m)
        nlinarith
  · intro hx hpos
    subst hx
    obtain ⟨m, hm, h1, h2⟩ := right hpos
    rw [hm] at h1 h2 ⊢
    rcases lt_trichotomy m 0 with h | h | h
    · have : (m : ℚ) ≤ -1 := by exact_mod_cast (by omega : m ≤ -1)
      nlinarith
    · subst h; push_cast; ring
    · have : (1 : ℚ) ≤ m := by exact_mod_cast (by omega : 1 ≤ m)
      nlinarith

/-- Witness for C3: width 1200, `x = 24`, speed `600`, two steps. -/
theorem stepX_round_trip_witness :
    (stepX (viewport 1200 800) 600)^[2] 24 = 24 :=
  (stepX_round_trip (viewport 1200 800) 24 600 2 (by norm_num) (by norm_num [viewport])
    (by norm_num) (by norm_num [viewport, abs_of_pos])).1 (Or.inl (by norm_num))

/-- C3 fails as stated: at width 1200 with speed 6 (so `n = 200`) the fish
starting at `x = 0` is at `x = 1200`, not `0`, after 200 steps. -/
theorem stepX_round_trip_counterexample :
    (0 : ℚ) < (viewport 1200 800).innerWidth ∧ (200 : ℚ) * |6| = (viewport 1200 800).innerWidth ∧
      (stepX (viewport 1200 800) 6)^[200] 0 = 1200 ∧
      (stepX (viewport 1200 800) 6)^[200] 0 ≠ 0 := by
  have walk : ∀ k : ℕ, k ≤ 200 → (stepX (viewport 1200 800) 6)^[k] 0 = 6 * (k : ℚ) := by
    intro k
    induction k with
    | zero => intro _; simp
    | succ k ih =>
      intro hk
      have hk' : (k : ℚ) ≤ 199 := by exact_mod_cast (by omega : k ≤ 199)
      have hk0 : (0 : ℚ) ≤ k := by exact_mod_cast Nat.zero_le k
      rw [Function.iterate_succ_apply', ih (by omega)]
      unfold stepX wrapX viewport
      dsimp only
      rw [if_neg (by linarith), if_neg (by linarith)]
      push_cast; ring
  have h200 := walk 200 le_rfl
  refine ⟨by norm_num [viewport], by norm_num [viewport], ?_, ?_⟩
  · rw [h200]; norm_num
  · rw [h200]; norm_num

/-! ## Speed and direction keys -/

theorem updateSpeed_fields (e : Env) (s : State) :
    (updateSpeed e s).dir = s.dir ∧ (updateSpeed e s).speedIndex = s.speedIndex ∧
    (updateSpeed e s).speed = (s.dir : ℚ) * (BASE_SPEEDS.getD s.speedIndex 0 * scale e) ∧
    (updateSpeed e s).x = s.x ∧ (updateSpeed e s).y = s.y ∧ (updateSpeed e s).vy = s.vy ∧
    (updateSpeed e s).spacePressed = s.spacePressed ∧ (updateSpeed e s).paused = s.paused := by
  unfold updateSpeed
  dsimp only
  split_ifs <;> exact ⟨rfl, rfl, rfl, rfl, rfl, rfl, rfl, rfl⟩

theorem keydown_ArrowRight (e : Env) (s : State) :
    keydown e "ArrowRight" s = updateSpeed e
      (if s.dir = 1 then
        { s with speedIndex := min (BASE_SPEEDS.length - 1) (s.speedIndex + 1) }
      else if s.speedIndex > 0 then { s with speedIndex := s.speedIndex - 1 }
      else { s with dir := 1, speedIndex := 0 }) := by
  simp [keydown]

theorem keydown_ArrowLeft (e : Env) (s : State) :
    keydown e "ArrowLeft" s = updateSpeed e
      (if s.dir = -1 then
        { s with speedIndex := min (BASE_SPEEDS.length - 1) (s.speedIndex + 1) }
      else if s.speedIndex > 0 then { s with speedIndex := s.speedIndex - 1 }
      else { s with dir := -1, speedIndex := 0 }) := by
  simp [keydown]

/-- C4: pressing ArrowRight yields (Right, min(index+1, 2)) when the
direction is Right (`dir = 1`), (Left, index-1) when the direction is Left
(`dir = -1`) and index > 0, and (Right, 0) when the direction is Left and
index = 0; from Right at index 2 the state stays Right at index 2. -/
theorem keydown_ArrowRight_transition (e : Env) (s : State) :
    (s.dir = 1 → (keydown e "ArrowRight" s).dir = 1 ∧
        (keydown e "ArrowRight" s).speedIndex = min (s.speedIndex + 1) 2) ∧
    (s.dir = -1 → 0 < s.speedIndex → (keydown e "ArrowRight" s).dir = -1 ∧
        (keydown e "ArrowRight" s).speedIndex = s.speedIndex - 1) ∧
    (s.dir = -1 → s.speedIndex = 0 → (keydown e "ArrowRight" s).dir = 1 ∧
        (keydown e "ArrowRight" s).speedIndex = 0) ∧
    (s.dir = 1 → s.speedIndex = 2 → (keydown e "ArrowRight" s).dir = 1 ∧
        (keydown e "ArrowRight" s).speedIndex = 2) := by
  rw [keydown_ArrowRight]
  refine ⟨fun hd => ?_, fun hd hi => ?_, fun hd hi => ?_, fun hd hi => ?_⟩
  · rw [if_pos hd, (updateSpeed_fields e _).1, (updateSpeed_fields e _).2.1]
    exact ⟨hd, by simp [BASE_SPEEDS, min_comm]⟩
  · rw [if_neg (by rw [hd]; decide), if_pos hi, (updateSpeed_fields e _).1,
      (updateSpeed_fields e _).2.1]
    exact ⟨hd, rfl⟩
  · rw [if_neg (by rw [hd]; decide), if_neg (by omega), (updateSpeed_fields e _).1,
      (updateSpeed_fields e _).2.1]
    exact ⟨rfl, rfl⟩
  · rw [if_pos hd, (updateSpeed_fields e _).1, (updateSpeed_fields e _).2.1]
    exact ⟨hd, by simp [BASE_SPEEDS, hi]⟩

/-- Witness for C4: the four cases at concrete states (Right 0, Left 1,
Left 0 and Right 2). -/
theorem keydown_ArrowRight_transition_witness :
    ((keydown (viewport 1200 800) "ArrowRight" (initialState (viewport 1200 800) fullDom false)).dir = 1 ∧
      (keydown (viewport 1200 800) "ArrowRight"
        (initialState (viewport 1200 800) fullDom false)).speedIndex = min (0 + 1) 2) ∧
    ((keydown (viewport 1200 800) "ArrowRight"
        { initialState (viewport 1200 800) fullDom false with dir := -1, speedIndex := 1 }).dir = -1 ∧
      (keydown (viewport 1200 800) "ArrowRight"
        { initialState (viewport 1200 800) fullDom false with dir := -1, speedIndex := 1 }).speedIndex
        = 1 - 1) ∧
    ((keydown (viewport 1200 800) "ArrowRight"
        { initialState (viewport 1200 800) fullDom false with dir := -1 }).dir = 1 ∧
      (keydown (viewport 1200 800) "ArrowRight"
        { initialState (viewport 1200 800) fullDom false with dir := -1 }).speedIndex = 0) ∧
    ((keydown (viewport 1200 800) "ArrowRight"
        { initialState (viewport 1200 800) fullDom false with speedIndex := 2 }).dir = 1 ∧
      (keydown (viewport 1200 800) "ArrowRight"
        { initialState (viewport 1200 800) fullDom false with speedIndex := 2 }).speedIndex = 2) :=
  ⟨(keydown_ArrowRight_transition (viewport 1200 800)
      (initialState (viewport 1200 800) fullDom false)).1 rfl,
    (keydown_ArrowRight_transition (viewport 1200 800)
      { initialState (viewport 1200 800) fullDom false with dir := -1, speedIndex := 1 }).2.1
      rfl (by decide),
    (keydown_ArrowRight_transition (viewport 1200 800)
      { initialState (viewport 1200 800) fullDom false with dir := -1 }).2.2.1 rfl rfl,
    (keydown_ArrowRight_transition (viewport 1200 800)
      { initialState (viewport 1200 800) fullDom false with speedIndex := 2 }).2.2.2 rfl rfl⟩

/-- C5: pressing ArrowLeft yields (Left, min(index+1, 2)) when the
direction is Left (`dir = -1`), (Right, index-1) when the direction is Right
(`dir = 1`) and index > 0, and (Left, 0) when the direction is Right and
index = 0; so from (Right, 0) one left-step gives (Left, 0) and a second
left-step gives (Left, 1). -/
theorem keydown_ArrowLeft_transition (e : Env) (s : State) :
    (s.dir = -1 → (keydown e "ArrowLeft" s).dir = -1 ∧
        (keydown e "ArrowLeft" s).speedIndex = min (s.speedIndex + 1) 2) ∧
    (s.dir = 1 → 0 < s.speedIndex → (keydown e "ArrowLeft" s).dir = 1 ∧
        (keydown e "ArrowLeft" s).speedIndex = s.speedIndex - 1) ∧
    (s.dir = 1 → s.speedIndex = 0 → (keydown e "ArrowLeft" s).dir = -1 ∧
        (keydown e "ArrowLeft" s).speedIndex = 0) ∧
    (s.dir = 1 → s.speedIndex = 0 → ∀ e2 : Env,
        (keydown e2 "ArrowLeft" (keydown e "ArrowLeft" s)).dir = -1 ∧
        (keydown e2 "ArrowLeft" (keydown e "ArrowLeft" s)).speedIndex = 1) := by
  have one : s.dir = 1 → s.speedIndex = 0 → (keydown e "ArrowLeft" s).dir = -1 ∧
      (keydown e "ArrowLeft" s).speedIndex = 0 := by
    intro hd hi
    rw [keydown_ArrowLeft, if_neg (by rw [hd]; decide), if_neg (by omega),
      (updateSpeed_fields e _).1, (updateSpeed_fields e _).2.1]
    exact ⟨rfl, rfl⟩
  refine ⟨fun hd => ?_, fun hd hi => ?_, one, fun hd hi e2 => ?_⟩
  · rw [keydown_ArrowLeft, if_pos hd, (updateSpeed_fields e _).1, (updateSpeed_fields e _).2.1]
    exact ⟨hd, by simp [BASE_SPEEDS, min_comm]⟩
  · rw [keydown_ArrowLeft, if_neg (by rw [hd]; decide), if_pos hi, (updateSpeed_fields e _).1,
      (updateSpeed_fields e _).2.1]
    exact ⟨hd, rfl⟩
  · obtain ⟨h1, h2⟩ := one hd hi
    rw [keydown_ArrowLeft e2, if_pos h1, (updateSpeed_fields e2 _).1,
      (updateSpeed_fields e2 _).2.1]
    exact ⟨h1, by simp [BASE_SPEEDS, h2]⟩

/-- Witness for C5: from the initial state (Right, 0), one and two
left-steps. -/
theorem keydown_ArrowLeft_transition_witness :
    ((keydown (viewport 1200 800) "ArrowLeft" (initialState (viewport 1200 800) fullDom false)).dir = -1 ∧
      (keydown (viewport 1200 800) "ArrowLeft"
        (initialState (viewport 1200 800) fullDom false)).speedIndex = 0) ∧
    ((keydown (viewport 1200 800) "ArrowLeft" (keydown (viewport 1200 800) "ArrowLeft"
        (initialState (viewport 1200 800) fullDom false))).dir = -1 ∧
      (keydown (viewport 1200 800) "ArrowLeft" (keydown (viewport 1200 800) "ArrowLeft"
        (initialState (viewport 1200 800) fullDom false))).speedIndex = 1) ∧
    ((keydown (viewport 1200 800) "ArrowLeft"
        { initialState (viewport 1200 800) fullDom false with dir := -1, speedIndex := 2 }).dir = -1 ∧
      (keydown (viewport 1200 800) "ArrowLeft"
        { initialState (viewport 1200 800) fullDom false with dir := -1, speedIndex := 2 }).speedIndex
        = min (2 + 1) 2) ∧
    ((keydown (viewport 1200 800) "ArrowLeft"
        { initialState (viewport 1200 800) fullDom false with speedIndex := 2 }).dir = 1 ∧
      (keydown (viewport 1200 800) "ArrowLeft"
        { initialState (viewport 1200 800) fullDom false with speedIndex := 2 }).speedIndex
        = 2 - 1) :=
  ⟨(keydown_ArrowLeft_transition (viewport 1200 800)
      (initialState (viewport 1200 800) fullDom false)).2.2.1 rfl rfl,
    (keydown_ArrowLeft_transition (viewport 1200 800)
      (initialState (viewport 1200 800) fullDom false)).2.2.2 rfl rfl (viewport 1200 800),
    (keydown_ArrowLeft_transition (viewport 1200 800)
      { initialState (viewport 1200 800) fullDom false with dir := -1, speedIndex := 2 }).1 rfl,
    (keydown_ArrowLeft_transition (viewport 1200 800)
      { initialState (viewport 1200 800) fullDom false with speedIndex := 2 }).2.1
      rfl (by decide)⟩

/-! ## Signed speed -/

theorem resize_fields (e : Env) (s : State) :
    (resize e s).dir = s.dir ∧ (resize e s).speedIndex = s.speedIndex ∧
    (resize e s).speed = (s.dir : ℚ) * (BASE_SPEEDS.getD s.speedIndex 0 * scale e) ∧
    (resize e s).vy = s.vy ∧ (resize e s).spacePressed = s.spacePressed ∧
    (resize e s).paused = s.paused := by
  unfold resize
  dsimp only
  have h := updateSpeed_fields e
    { s with
      x := min s.x (e.innerWidth - 40)
      y := max (max 0 (e.innerHeight / 6 + getFishHalfHeight e + 1))
        (min (e.innerHeight - 40) s.y) }
  split_ifs <;> exact ⟨h.1, h.2.1, h.2.2.1, h.2.2.2.2.2.1, h.2.2.2.2.2.2.1, h.2.2.2.2.2.2.2⟩

theorem BASE_SPEEDS_getD (i : ℕ) (hi : i ≤ 2) :
    BASE_SPEEDS[i]? = some (BASE_SPEEDS.getD i 0) := by
  interval_cases i <;> simp [BASE_SPEEDS]

/-- C6: after an ArrowLeft or ArrowRight key-down, and after a resize, the
stored signed speed equals `dir * BASE_SPEEDS[index] * scale()` for the new
direction and index (index within the table `[1, 3, 6]`); and at width 1200
the scale is 1, one right-step from the initial state (x = 24, Right,
index 0) makes the speed 3, and the next frame gives x = 27. -/
theorem signed_speed_law (e : Env) (s : State) (hidx : s.speedIndex ≤ 2) :
    (∀ key, key = "ArrowLeft" ∨ key = "ArrowRight" →
      ∃ b, BASE_SPEEDS[(keydown e key s).speedIndex]? = some b ∧
        (keydown e key s).speed = ((keydown e key s).dir : ℚ) * b * scale e) ∧
    (∃ b, BASE_SPEEDS[(resize e s).speedIndex]? = some b ∧
        (resize e s).speed = ((resize e s).dir : ℚ) * b * scale e) ∧
    BASE_SPEEDS = [1, 3, 6] ∧
    (scale (viewport 1200 800) = 1 ∧
      (initialState (viewport 1200 800) fullDom false).x = 24 ∧
      (initialState (viewport 1200 800) fullDom false).dir = 1 ∧
      (initialState (viewport 1200 800) fullDom false).speedIndex = 0 ∧
      (keydown (viewport 1200 800) "ArrowRight"
        (initialState (viewport 1200 800) fullDom false)).speed = 3 ∧
      (loop (viewport 1200 800) (keydown (viewport 1200 800) "ArrowRight"
        (initialState (viewport 1200 800) fullDom false))).x = 27) := by
  have law : ∀ t : State, t.speedIndex ≤ 2 →
      ∃ b, BASE_SPEEDS[(updateSpeed e t).speedIndex]? = some b ∧
        (updateSpeed e t).speed = ((updateSpeed e t).dir : ℚ) * b * scale e := by
    intro t ht
    obtain ⟨h1, h2, h3, _⟩ := updateSpeed_fields e t
    refine ⟨BASE_SPEEDS.getD t.speedIndex 0, ?_, ?_⟩
    · rw [h2]; exact BASE_SPEEDS_getD _ ht
    · rw [h1, h3]; ring
  have hsc : scale (viewport 1200 800) = 1 := by norm_num [scale, viewport]
  refine ⟨?_, ?_, rfl, hsc, rfl, rfl, rfl, ?_⟩
  · rintro key (rfl | rfl)
    · rw [keydown_ArrowLeft]
      apply law
      split_ifs
      · exact min_le_left _ _
      · exact le_trans (Nat.sub_le _ _) hidx
      · exact Nat.zero_le _
    · rw [keydown_ArrowRight]
      apply law
      split_ifs
      · exact min_le_left _ _
      · exact le_trans (Nat.sub_le _ _) hidx
      · exact Nat.zero_le _
  · obtain ⟨h1, h2, h3, _⟩ := resize_fields e s
    refine ⟨BASE_SPEEDS.getD s.speedIndex 0, ?_, ?_⟩
    · rw [h2]; exact BASE_SPEEDS_getD _ hidx
    · rw [h1, h3]; ring
  · have hsp : (keydown (viewport 1200 800) "ArrowRight"
        (initialState (viewport 1200 800) fullDom false)).speed = 3 := by
      rw [keydown_ArrowRight, (updateSpeed_fields _ _).2.2.1, hsc]
      norm_num [initialState, BASE_SPEEDS]
    have hx : (keydown (viewport 1200 800) "ArrowRight"
        (initialState (viewport 1200 800) fullDom false)).x = 24 := by
      rw [keydown_ArrowRight, (updateSpeed_fields _ _).2.2.2.1]
      simp [initialState]
    have hp : (keydown (viewport 1200 800) "ArrowRight"
        (initialState (viewport 1200 800) fullDom false)).paused = false := by
      rw [keydown_ArrowRight, (updateSpeed_fields _ _).2.2.2.2.2.2.2]
      simp [initialState]
    refine ⟨hsp, ?_⟩
    rw [loop_x _ _ hp, hsp, hx]
    norm_num [wrapX, viewport]

/-- Witness for C6: the initial state (index 0) at width 1200. -/
theorem signed_speed_law_witness :
    ∃ b, BASE_SPEEDS[(keydown (viewport 1200 800) "ArrowLeft"
        (initialState (viewport 1200 800) fullDom false)).speedIndex]? = some b ∧
      (keydown (viewport 1200 800) "ArrowLeft"
        (initialState (viewport 1200 800) fullDom false)).speed =
      ((keydown (viewport 1200 800) "ArrowLeft"
        (initialState (viewport 1200 800) fullDom false)).dir : ℚ) * b *
        scale (viewport 1200 800) :=
  (signed_speed_law (viewport 1200 800) (initialState (viewport 1200 800) fullDom false)
    (by decide)).1 "ArrowLeft" (Or.inl rfl)

/-! ## Surge -/

theorem keydown_space (e : Env) (s : State) :
    keydown e " " s =
      if !s.spacePressed then
        { s with
          spacePressed := true
          vy := max (maxRise e) (s.vy - 2.2 * scale e)
          fishPose := FishPose.surge }
      else s := by
  simp [keydown]

/-- C7: when the surge flag is already set, a further surge (space)
key-down leaves the whole state unchanged; hence a run of surge key-downs
with no key-up in between ends in the same state as its first key-down
alone, and that first key-down (surge flag clear) subtracts the
`2.2 * scale()` impulse from `vy` once, floored at `maxRise()`. -/
theorem surge_keydown_idempotent (e : Env) (s : State) :
    (s.spacePressed = true → keydown e " " s = s) ∧
    (∀ es : List Env,
      run s (Event.keydown e " " :: es.map (fun e2 => Event.keydown e2 " ")) =
        keydown e " " s) ∧
    (s.spacePressed = false →
      (keydown e " " s).spacePressed = true ∧
      (keydown e " " s).vy = max (maxRise e) (s.vy - 2.2 * scale e)) := by
  have held : ∀ (e2 : Env) (t : State), t.spacePressed = true → keydown e2 " " t = t := by
    intro e2 t ht
    rw [keydown_space, if_neg (by simp [ht])]
  have pressed : (keydown e " " s).spacePressed = true := by
    rw [keydown_space]
    split_ifs with h
    · rfl
    · simpa using h
  refine ⟨held e s, ?_, ?_⟩
  · intro es
    show run (keydown e " " s) (es.map (fun e2 => Event.keydown e2 " ")) = keydown e " " s
    generalize keydown e " " s = t at pressed
    induction es with
    | nil => rfl
    | cons e2 es ih =>
      show run (keydown e2 " " t) (es.map (fun e2 => Event.keydown e2 " ")) = t
      rw [held e2 t pressed]
      exact ih
  · intro hs
    rw [keydown_space, if_pos (by simp [hs])]
    exact ⟨rfl, rfl⟩

/-- Witness for C7: the initial state after one surge key-down has the flag
set, and a second key-down changes nothing; from the initial state the
impulse is applied. -/
theorem surge_keydown_idempotent_witness :
    keydown (viewport 1200 800) " "
        (keydown (viewport 1200 800) " " (initialState (viewport 1200 800) fullDom false)) =
      keydown (viewport 1200 800) " " (initialState (viewport 1200 800) fullDom false) ∧
    (keydown (viewport 1200 800) " " (initialState (viewport 1200 800) fullDom false)).vy =
      max (maxRise (viewport 1200 800))
        ((initialState (viewport 1200 800) fullDom false).vy - 2.2 * scale (viewport 1200 800)) :=
  ⟨(surge_keydown_idempotent (viewport 1200 800)
      (keydown (viewport 1200 800) " " (initialState (viewport 1200 800) fullDom false))).1
      (by simp [keydown_space, initialState]),
    ((surge_keydown_idempotent (viewport 1200 800)
      (initialState (viewport 1200 800) fullDom false)).2.2 rfl).2⟩

/-! ## Velocity bounds -/

theorem scale_congr (e e0 : Env) (h : e.innerWidth = e0.innerWidth) : scale e = scale e0 := by
  unfold scale
  rw [h]

theorem loop_vy_bounds (e : Env) (s : State)
    (h : -4 * scale e ≤ s.vy ∧ s.vy ≤ 3 * scale e) :
    -4 * scale e ≤ (loop e s).vy ∧ (loop e s).vy ≤ 3 * scale e := by
  have hsc := scale_pos e
  cases hp : s.paused with
  | true => rw [loop_of_paused e s hp]; exact h
  | false =>
    rw [loop_vy e s hp]
    unfold maxRise maxFall gravity
    split_ifs
    · refine ⟨le_trans (by norm_num) (le_max_left _ _), max_le (by linarith) (by linarith)⟩
    · refine ⟨le_min (by linarith) (by linarith), le_trans (min_le_left _ _) (by norm_num)⟩

theorem start_vy_bounds (e : Env) (dom : Dom) (c : Bool) :
    -4 * scale e ≤ (start e dom c).vy ∧ (start e dom c).vy ≤ 3 * scale e := by
  have hsc := scale_pos e
  unfold start
  dsimp only
  apply loop_vy_bounds
  have h0 : (updateSpeed e (initialState e dom c)).vy = 0 :=
    (updateSpeed_fields e _).2.2.2.2.2.1
  split_ifs
  · show -4 * scale e ≤ (updateSpeed e (initialState e dom c)).vy ∧
      (updateSpeed e (initialState e dom c)).vy ≤ 3 * scale e
    rw [h0]; constructor <;> linarith
  · rw [h0]; constructor <;> linarith

theorem keydown_C (e : Env) (s : State) :
    keydown e "C" s =
      { s with
        casting := !s.casting
        storedCasting := some (!s.casting)
        reloadRequested := true } := by
  simp [keydown]

theorem keydown_p (e : Env) (s : State) :
    keydown e "p" s = { s with paused := !s.paused } := by
  simp [keydown]

theorem keydown_other (e : Env) (key : String) (s : State) (hC : key ≠ "C")
    (hsp : key ≠ " ") (hp : key ≠ "p") (hR : key ≠ "ArrowRight") (hL : key ≠ "ArrowLeft") :
    keydown e key s = s := by
  unfold keydown
  rw [if_neg hC, if_neg hsp, if_neg hp, if_neg hR, if_neg hL]

theorem keydown_vy_bounds (e : Env) (key : String) (s : State)
    (h : -4 * scale e ≤ s.vy ∧ s.vy ≤ 3 * scale e) :
    -4 * scale e ≤ (keydown e key s).vy ∧ (keydown e key s).vy ≤ 3 * scale e := by
  have hsc := scale_pos e
  by_cases hC : key = "C"
  · subst hC
    rw [keydown_C]
    exact h
  by_cases hsp : key = " "
  · subst hsp
    rw [keydown_space]
    split_ifs
    · show -4 * scale e ≤ max (maxRise e) (s.vy - 2.2 * scale e) ∧
        max (maxRise e) (s.vy - 2.2 * scale e) ≤ 3 * scale e
      unfold maxRise
      exact ⟨le_trans (by norm_num) (le_max_left _ _), max_le (by linarith) (by linarith)⟩
    · exact h
  by_cases hp : key = "p"
  · subst hp
    rw [keydown_p]
    exact h
  by_cases hR : key = "ArrowRight"
  · subst hR
    rw [keydown_ArrowRight, (updateSpeed_fields e _).2.2.2.2.2.1]
    split_ifs <;> exact h
  by_cases hL : key = "ArrowLeft"
  · subst hL
    rw [keydown_ArrowLeft, (updateSpeed_fields e _).2.2.2.2.2.1]
    split_ifs <;> exact h
  rw [keydown_other e key s hC hsp hp hR hL]
  exact h

theorem keyup_vy (key : String) (s : State) : (keyup key s).vy = s.vy := by
  unfold keyup
  split_ifs <;> rfl

/-- C8: with the viewport width held fixed (every handler sees the width
of `e0`, so `scale()` is the constant `scale e0`), every state reached from
a state with `vy = 0` by any sequence of key-downs, key-ups, frames and
same-width resizes has `-4 * scale ≤ vy ≤ 3 * scale`; an unpaused surge
frame computes `max(-4*scale, vy - 0.45*scale)`, an unpaused free frame
computes `min(3*scale, vy + 0.12*scale)`, and the surge press computes
`max(-4*scale, vy - 2.2*scale)`. -/
theorem vy_bounds_reachable (e0 : Env) (s0 : State) (evs : List Event) (h0 : s0.vy = 0)
    (hw : ∀ ev ∈ evs, ∀ e, ev.env? = some e → e.innerWidth = e0.innerWidth) :
    (-4 * scale e0 ≤ (run s0 evs).vy ∧ (run s0 evs).vy ≤ 3 * scale e0) ∧
    (∀ (e : Env) (s : State), s.paused = false → s.spacePressed = true →
      (loop e s).vy = max (-4 * scale e) (s.vy - 0.45 * scale e)) ∧
    (∀ (e : Env) (s : State), s.paused = false → s.spacePressed = false →
      (loop e s).vy = min (3 * scale e) (s.vy + 0.12 * scale e)) ∧
    (∀ (e : Env) (s : State), s.spacePressed = false →
      (keydown e " " s).vy = max (-4 * scale e) (s.vy - 2.2 * scale e)) := by
  have hsc := scale_pos e0
  have inv : ∀ (evs : List Event) (s : State),
      (∀ ev ∈ evs, ∀ e, ev.env? = some e → e.innerWidth = e0.innerWidth) →
      (-4 * scale e0 ≤ s.vy ∧ s.vy ≤ 3 * scale e0) →
      (-4 * scale e0 ≤ (run s evs).vy ∧ (run s evs).vy ≤ 3 * scale e0) := by
    intro evs
    induction evs with
    | nil => intro s _ hs; exact hs
    | cons ev evs ih =>
      intro s hws hs
      show -4 * scale e0 ≤ (run (ev.apply s) evs).vy ∧ (run (ev.apply s) evs).vy ≤ 3 * scale e0
      apply ih _ (fun ev2 h2 => hws ev2 (List.mem_cons_of_mem _ h2))
      have hev := hws ev (List.mem_cons_self _ _)
      cases ev with
      | keydown e key =>
        have hse := scale_congr e e0 (hev e rfl)
        rw [← hse] at hs ⊢
        exact keydown_vy_bounds e key s hs
      | keyup key =>
        show -4 * scale e0 ≤ (keyup key s).vy ∧ (keyup key s).vy ≤ 3 * scale e0
        rw [keyup_vy]; exact hs
      | frame e =>
        have hse := scale_congr e e0 (hev e rfl)
        rw [← hse] at hs ⊢
        exact loop_vy_bounds e s hs
      | resize e =>
        show -4 * scale e0 ≤ (resize e s).vy ∧ (resize e s).vy ≤ 3 * scale e0
        rw [(resize_fields e s).2.2.2.1]; exact hs
  refine ⟨inv evs s0 hw (by rw [h0]; constructor <;> linarith), ?_, ?_, ?_⟩
  · intro e s hp hsp
    rw [loop_vy e s hp, if_pos hsp]
    unfold maxRise; norm_num
  · intro e s hp hsp
    rw [loop_vy e s hp, if_neg (by simp [hsp])]
    unfold maxFall gravity; norm_num
  · intro e s hsp
    rw [keydown_space, if_pos (by simp [hsp])]
    show max (maxRise e) (s.vy - 2.2 * scale e) = _
    unfold maxRise; norm_num

/-- Witness for C8: at width 1200, press surge, run two frames, release,
run a frame. -/
theorem vy_bounds_reachable_witness :
    -4 * scale (viewport 1200 800) ≤
        (run (initialState (viewport 1200 800) fullDom false)
          [Event.keydown (viewport 1200 800) " ", Event.frame (viewport 1200 800),
            Event.frame (viewport 1200 800), Event.keyup " ",
            Event.frame (viewport 1200 800)]).vy ∧
      (run (initialState (viewport 1200 800) fullDom false)
          [Event.keydown (viewport 1200 800) " ", Event.frame (viewport 1200 800),
            Event.frame (viewport 1200 800), Event.keyup " ",
            Event.frame (viewport 1200 800)]).vy ≤ 3 * scale (viewport 1200 800) :=
  (vy_bounds_reachable (viewport 1200 800) (initialState (viewport 1200 800) fullDom false)
    [Event.keydown (viewport 1200 800) " ", Event.frame (viewport 1200 800),
      Event.frame (viewport 1200 800), Event.keyup " ", Event.frame (viewport 1200 800)]
    rfl
    (by
      intro ev hev e he
      simp only [List.mem_cons, List.mem_singleton, List.not_mem_nil, or_false] at hev
      rcases hev with rfl | rfl | rfl | rfl | rfl <;>
        simp only [Event.env?, Option.some.injEq, reduceCtorEq] at he <;>
        (subst he; rfl))).1

/-! ## Cast eligibility and the one-shot flag -/

theorem getBoatSectionIndex_lt_eight (e : Env) :
    getBoatSectionIndex e < 8 ↔
      (e.boatRect.left + e.boatRect.width / 2) / e.innerWidth * 10 < 8 := by
  unfold getBoatSectionIndex
  dsimp only
  rw [min_lt_iff, max_lt_iff, Int.floor_lt]
  constructor
  · rintro (h | ⟨_, h⟩)
    · omega
    · exact_mod_cast h
  · intro h
    exact Or.inr ⟨by norm_num, by exact_mod_cast h⟩

theorem startCast_of_fired (e : Env) (now : ℚ) (s : State) (h : s.hasCastOnce = true) :
    startCast e now s = s := by
  unfold startCast
  rw [if_pos (by simp [h])]

theorem startCast_of_ready (e : Env) (now : ℚ) (s : State) (hone : s.hasCastOnce = false)
    (hrod : s.rodGroup = true) :
    startCast e now s =
      if getBoatSectionIndex e ≥ 8 then s
      else { s with hasCastOnce := true, castPhase := CastPhase.windup, castStartAt := now } := by
  unfold startCast
  rw [if_neg (by simp [hone, hrod])]

/-- C9 (as amended): in a viewport of width `w > 0`, with the rod group
present (it is built at start-up only when the feature flag is on and the
boat, `#arm` and `#rod` exist), the one-shot flag not yet set and the cast
phase Idle, `startCast` moves the phase to Windup exactly when the boat
section index is `< 8` (section 7 starts the cast, section 8 leaves the
state unchanged); the section index is
`min(9, max(0, floor(10 * boatCenterX / w)))`, and it is `< 8` exactly when
`boatCenterX < 0.8 * w`. -/
theorem startCast_eligibility (e : Env) (now : ℚ) (s : State) (hw : 0 < e.innerWidth)
    (hrod : s.rodGroup = true) (hone : s.hasCastOnce = false)
    (hidle : s.castPhase = CastPhase.idle) :
    ((startCast e now s).castPhase = CastPhase.windup ↔ getBoatSectionIndex e < 8) ∧
    (getBoatSectionIndex e = 7 → (startCast e now s).castPhase = CastPhase.windup) ∧
    (getBoatSectionIndex e = 8 → startCast e now s = s) ∧
    getBoatSectionIndex e =
      min 9 (max 0 ⌊10 * (e.boatRect.left + e.boatRect.width / 2) / e.innerWidth⌋) ∧
    (getBoatSectionIndex e < 8 ↔
      e.boatRect.left + e.boatRect.width / 2 < 0.8 * e.innerWidth) := by
  have key : (startCast e now s).castPhase = CastPhase.windup ↔ getBoatSectionIndex e < 8 := by
    rw [startCast_of_ready e now s hone hrod]
    split_ifs with h
    · rw [hidle]
      constructor
      · intro h2; cases h2
      · intro h2; omega
    · exact ⟨fun _ => by omega, fun _ => rfl⟩
  refine ⟨key, fun h7 => key.mpr (by omega), fun h8 => ?_, ?_, ?_⟩
  · rw [startCast_of_ready e now s hone hrod, if_pos (by omega)]
  · unfold getBoatSectionIndex
    dsimp only
    congr 3
    push_cast
    ring
  · rw [getBoatSectionIndex_lt_eight, div_mul_eq_mul_div, div_lt_iff₀ hw]
    constructor <;> intro h <;> linarith

/-- Witness for C9: at 1200x800 with the boat centred at x = 80 (section
0), the first `startCast` on a full page with the flag on enters Windup. -/
theorem startCast_eligibility_witness :
    (startCast (viewport 1200 800) 0
      (initialState (viewport 1200 800) fullDom true)).castPhase = CastPhase.windup :=
  (startCast_eligibility (viewport 1200 800) 0 (initialState (viewport 1200 800) fullDom true)
      (by norm_num [viewport]) rfl rfl rfl).1.mpr
    ((startCast_eligibility (viewport 1200 800) 0
      (initialState (viewport 1200 800) fullDom true)
      (by norm_num [viewport]) rfl rfl rfl).2.2.2.2.mpr (by norm_num [viewport]))

/-- C9 fails as stated: on a page without the `#arm` path the rod group is
never built, so with the feature flag on, the one-shot flag clear and the
boat in section 0 (`< 8`), `startCast` still leaves the phase at Idle. -/
theorem startCast_flag_on_counterexample :
    (initialState (viewport 1200 800) noArmDom true).casting = true ∧
    (initialState (viewport 1200 800) noArmDom true).hasCastOnce = false ∧
    (initialState (viewport 1200 800) noArmDom true).castPhase = CastPhase.idle ∧
    getBoatSectionIndex (viewport 1200 800) < 8 ∧
    (startCast (viewport 1200 800) 0
      (initialState (viewport 1200 800) noArmDom true)).castPhase = CastPhase.idle := by
  refine ⟨rfl, rfl, rfl, ?_, ?_⟩
  · rw [getBoatSectionIndex_lt_eight]
    norm_num [viewport]
  · unfold startCast
    rw [if_pos (by simp [initialState, noArmDom])]
    rfl

theorem stepCast_hasCastOnce (e : Env) (now : ℚ) (s : State) :
    (stepCast e now s).hasCastOnce = s.hasCastOnce := by
  unfold stepCast
  dsimp only
  by_cases h : (decide (s.castPhase = CastPhase.idle) || !s.rodGroup) = true
  · rw [if_pos h]
  · rw [if_neg h]
    split <;> (try split_ifs) <;> rfl

theorem stepCast_no_entry (e : Env) (now : ℚ) (s : State)
    (hs : s.castPhase ≠ CastPhase.windup) :
    (stepCast e now s).castPhase ≠ CastPhase.windup := by
  unfold stepCast
  dsimp only
  by_cases h : (decide (s.castPhase = CastPhase.idle) || !s.rodGroup) = true
  · rw [if_pos h]; exact hs
  · rw [if_neg h]
    split
    · next hw => exact absurd hw hs
    · split_ifs
      · simp
      · exact hs
    · split_ifs
      · simp
      · exact hs
    · exact hs

theorem startCast_hasCastOnce (e : Env) (now : ℚ) (s : State) (h : s.hasCastOnce = true) :
    (startCast e now s).hasCastOnce = true := by
  rw [startCast_of_fired e now s h]; exact h

theorem startCast_entry (e : Env) (now : ℚ) (s : State)
    (hs : s.castPhase ≠ CastPhase.windup)
    (h : (startCast e now s).castPhase = CastPhase.windup) :
    s.hasCastOnce = false ∧ (startCast e now s).hasCastOnce = true := by
  unfold startCast at h ⊢
  dsimp only at h ⊢
  split_ifs at h ⊢ with h1 h2
  · exact absurd h hs
  · exact absurd h hs
  · refine ⟨?_, rfl⟩
    cases hc : s.hasCastOnce
    · rfl
    · simp [hc] at h1

theorem windupEntries_of_fired (calls : List CastCall) :
    ∀ s : State, s.hasCastOnce = true →
      windupEntries s calls = 0 ∧ (runCast s calls).hasCastOnce = true := by
  induction calls with
  | nil => intro s h; exact ⟨rfl, h⟩
  | cons c cs ih =>
    intro s h
    have hnext : (c.apply s).hasCastOnce = true := by
      cases c with
      | start e now => exact startCast_hasCastOnce e now s h
      | step e now =>
        show (stepCast e now s).hasCastOnce = true
        rw [stepCast_hasCastOnce]; exact h
    have hno : ¬ (s.castPhase ≠ CastPhase.windup ∧ (c.apply s).castPhase = CastPhase.windup) := by
      rintro ⟨h1, h2⟩
      cases c with
      | start e now =>
        have := (startCast_entry e now s h1 h2).1
        rw [h] at this
        cases this
      | step e now => exact stepCast_no_entry e now s h1 h2
    obtain ⟨ih1, ih2⟩ := ih (c.apply s) hnext
    refine ⟨?_, ih2⟩
    show (if _ then 1 else 0) + windupEntries (c.apply s) cs = 0
    rw [if_neg hno, ih1]

theorem updateSpeed_hasCastOnce (e : Env) (s : State) :
    (updateSpeed e s).hasCastOnce = s.hasCastOnce := by
  unfold updateSpeed
  dsimp only
  split_ifs <;> rfl

theorem animateHook_fired (e : Env) (s : State) (h : s.hasCastOnce = true) :
    (animateHook e s).hasCastOnce = true := by
  unfold animateHook
  dsimp only
  split_ifs <;>
    first
    | exact h
    | exact startCast_hasCastOnce e e.now _ h
    | exact (stepCast_hasCastOnce e e.now _).trans h

theorem loop_fired (e : Env) (s : State) (h : s.hasCastOnce = true) :
    (loop e s).hasCastOnce = true := by
  cases hp : s.paused with
  | true => rw [loop_of_paused e s hp]; exact h
  | false =>
    unfold loop
    rw [if_neg (by simp [hp])]
    exact animateHook_fired e _ h

theorem keydown_fired (e : Env) (key : String) (s : State) (hC : key ≠ "C")
    (h : s.hasCastOnce = true) : (keydown e key s).hasCastOnce = true := by
  by_cases hsp : key = " "
  · subst hsp
    rw [keydown_space]
    split_ifs <;> exact h
  by_cases hp : key = "p"
  · subst hp
    rw [keydown_p]
    exact h
  by_cases hR : key = "ArrowRight"
  · subst hR
    rw [keydown_ArrowRight, updateSpeed_hasCastOnce]
    split_ifs <;> exact h
  by_cases hL : key = "ArrowLeft"
  · subst hL
    rw [keydown_ArrowLeft, updateSpeed_hasCastOnce]
    split_ifs <;> exact h
  rw [keydown_other e key s hC hsp hp hR hL]
  exact h

theorem keyup_hasCastOnce (key : String) (s : State) :
    (keyup key s).hasCastOnce = s.hasCastOnce := by
  unfold keyup
  split_ifs <;> rfl

theorem resize_hasCastOnce (e : Env) (s : State) :
    (resize e s).hasCastOnce = s.hasCastOnce := by
  unfold resize
  dsimp only
  split_ifs <;> exact updateSpeed_hasCastOnce e _

theorem run_fired (evs : List Event) :
    ∀ s : State, s.hasCastOnce = true →
      (∀ ev ∈ evs, ∀ (e : Env) (key : String), ev = Event.keydown e key → key ≠ "C") →
      (run s evs).hasCastOnce = true := by
  induction evs with
  | nil => intro s h _; exact h
  | cons ev evs ih =>
    intro s h hC
    show (run (ev.apply s) evs).hasCastOnce = true
    apply ih _ _ (fun ev2 h2 => hC ev2 (List.mem_cons_of_mem _ h2))
    cases ev with
    | keydown e key =>
      exact keydown_fired e key s (hC _ (List.mem_cons_self _ _) e key rfl) h
    | keyup key => exact (keyup_hasCastOnce key s).trans h
    | frame e => exact loop_fired e s h
    | resize e => exact (resize_hasCastOnce e s).trans h

/-- C10: once `hasCastOnce` is true, `startCast` changes nothing (phase,
phase-start timestamp and flag included), the flag stays true over any
sequence of `startCast` and `stepCast` calls and over any sequence of
frames, key events (other than the reloading `'C'`) and resizes, and no
call of such a sequence enters Windup; and from any state at all, over any
sequence of `startCast` and `stepCast` calls, the phase enters Windup at
most once. -/
theorem cast_one_shot (s : State) (calls : List CastCall) :
    (s.hasCastOnce = true → ∀ (e : Env) (now : ℚ), startCast e now s = s) ∧
    (s.hasCastOnce = true →
      (runCast s calls).hasCastOnce = true ∧ windupEntries s calls = 0) ∧
    (s.hasCastOnce = true → ∀ evs : List Event,
      (∀ ev ∈ evs, ∀ (e : Env) (key : String), ev = Event.keydown e key → key ≠ "C") →
      (run s evs).hasCastOnce = true) ∧
    windupEntries s calls ≤ 1 := by
  refine ⟨fun h e now => startCast_of_fired e now s h,
    fun h => ⟨(windupEntries_of_fired calls s h).2, (windupEntries_of_fired calls s h).1⟩,
    fun h evs hC => run_fired evs s h hC, ?_⟩
  induction calls generalizing s with
  | nil => exact Nat.zero_le _
  | cons c cs ih =>
    show (if _ then 1 else 0) + windupEntries (c.apply s) cs ≤ 1
    split_ifs with h
    · obtain ⟨h1, h2⟩ := h
      have hfired : (c.apply s).hasCastOnce = true := by
        cases c with
        | start e now => exact (startCast_entry e now s h1 h2).2
        | step e now => exact absurd h2 (stepCast_no_entry e now s h1)
      rw [(windupEntries_of_fired cs _ hfired).1]
    · rw [Nat.zero_add]
      exact ih (c.apply s)

/-- Witness for C10: after the first `startCast` of a full page with the
flag on has fired, a second `startCast` is a no-op, and a later sequence of
calls (running the cast to its end and calling `startCast` again) never
enters Windup. -/
theorem cast_one_shot_witness :
    startCast (viewport 1200 800) 5000
        (startCast (viewport 1200 800) 0 (initialState (viewport 1200 800) fullDom true)) =
      startCast (viewport 1200 800) 0 (initialState (viewport 1200 800) fullDom true) ∧
    windupEntries
        (startCast (viewport 1200 800) 0 (initialState (viewport 1200 800) fullDom true))
        [CastCall.step (viewport 1200 800) 400, CastCall.step (viewport 1200 800) 700,
          CastCall.step (viewport 1200 800) 1000, CastCall.start (viewport 1200 800) 1100] = 0 :=
  have fired : (startCast (viewport 1200 800) 0
      (initialState (viewport 1200 800) fullDom true)).hasCastOnce = true := by
    rw [startCast_of_ready _ _ _ rfl rfl, if_neg]
    rw [not_le, getBoatSectionIndex_lt_eight]
    norm_num [viewport]
  ⟨(cast_one_shot _ []).1 fired (viewport 1200 800) 5000,
    ((cast_one_shot _ _).2.1 fired).2⟩

/-! ## Hook and cast variables untouched by the fish handlers -/

theorem sameRig_refl (s : State) : SameRig s s :=
  ⟨rfl, rfl, rfl, rfl, rfl, rfl, rfl, rfl, rfl, rfl⟩

theorem updateSpeed_sameRig (e : Env) (s : State) : SameRig s (updateSpeed e s) := by
  unfold updateSpeed
  dsimp only
  split_ifs <;> exact sameRig_refl s

theorem keyup_sameRig (key : String) (s : State) : SameRig s (keyup key s) := by
  unfold keyup
  split_ifs <;> exact sameRig_refl s

theorem resize_sameRig (e : Env) (s : State) : SameRig s (resize e s) := by
  unfold resize
  dsimp only
  split_ifs <;> exact updateSpeed_sameRig e _

theorem keydown_sameRig (e : Env) (key : String) (s : State) (hC : key ≠ "C") :
    SameRig s (keydown e key s) := by
  by_cases hsp : key = " "
  · subst hsp
    rw [keydown_space]
    split_ifs <;> exact sameRig_refl s
  by_cases hp : key = "p"
  · subst hp
    rw [keydown_p]
    exact sameRig_refl s
  by_cases hR : key = "ArrowRight"
  · subst hR
    rw [keydown_ArrowRight]
    split_ifs <;> exact updateSpeed_sameRig e _
  by_cases hL : key = "ArrowLeft"
  · subst hL
    rw [keydown_ArrowLeft]
    split_ifs <;> exact updateSpeed_sameRig e _
  rw [keydown_other e key s hC hsp hp hR hL]
  exact sameRig_refl s

/-! ## Pause and unrecognised keys -/

/-- C16: with `paused = true`, one call of `loop` returns the state
unchanged (x, y, vy, surge flag, direction, speed index, hook state and cast
state included); and pressing the pause key `p` twice restores the state,
in particular the original `paused` value. -/
theorem paused_loop_noop (e : Env) (s : State) :
    (s.paused = true → loop e s = s) ∧
    (∀ e2 : Env, keydown e2 "p" (keydown e "p" s) = s) ∧
    (keydown e "p" s).paused = !s.paused := by
  refine ⟨loop_of_paused e s, fun e2 => ?_, ?_⟩
  · rw [keydown_p, keydown_p]
    simp
  · rw [keydown_p]

/-- C18: a key-down of any key other than `' '`, `'p'`, `'ArrowLeft'`,
`'ArrowRight'` and `'C'` (for instance `'P'` or `'c'`) leaves the whole
state unchanged, and a key-up of any key other than `' '` leaves it
unchanged. -/
theorem unrecognised_key_ignored (e : Env) (key : String) (s : State) :
    (key ≠ " " → key ≠ "p" → key ≠ "ArrowLeft" → key ≠ "ArrowRight" → key ≠ "C" →
      keydown e key s = s) ∧
    keydown e "P" s = s ∧ keydown e "c" s = s ∧
    (key ≠ " " → keyup key s = s) := by
  refine ⟨fun h1 h2 h3 h4 h5 => keydown_other e key s h5 h1 h2 h4 h3, ?_, ?_, fun h => ?_⟩
  · exact keydown_other e "P" s (by decide) (by decide) (by decide) (by decide) (by decide)
  · exact keydown_other e "c" s (by decide) (by decide) (by decide) (by decide) (by decide)
  · unfold keyup
    rw [if_neg h]

/-- Witness for C16: the initial state after one press of `p` is paused,
and a frame then changes nothing. -/
theorem paused_loop_noop_witness :
    loop (viewport 1200 800)
        (keydown (viewport 1200 800) "p" (initialState (viewport 1200 800) fullDom true)) =
      keydown (viewport 1200 800) "p" (initialState (viewport 1200 800) fullDom true) :=
  (paused_loop_noop (viewport 1200 800)
    (keydown (viewport 1200 800) "p" (initialState (viewport 1200 800) fullDom true))).1
    (by rw [keydown_p]; rfl)

/-- Witness for C18: the key `x` pressed and released on the initial
state. -/
theorem unrecognised_key_ignored_witness :
    keydown (viewport 1200 800) "x" (initialState (viewport 1200 800) fullDom true) =
        initialState (viewport 1200 800) fullDom true ∧
    keyup "x" (initialState (viewport 1200 800) fullDom true) =
        initialState (viewport 1200 800) fullDom true :=
  ⟨(unrecognised_key_ignored (viewport 1200 800) "x"
      (initialState (viewport 1200 800) fullDom true)).1
      (by decide) (by decide) (by decide) (by decide) (by decide),
    (unrecognised_key_ignored (viewport 1200 800) "x"
      (initialState (viewport 1200 800) fullDom true)).2.2.2 (by decide)⟩

/-! ## Cast steps, phase by phase -/

theorem ease_done (t d : ℚ) (hd : 0 < d) : min 1 (t / d) ≥ 1 ↔ d ≤ t := by
  rw [ge_iff_le, le_min_iff, one_le_div hd]
  exact ⟨fun h => h.2, fun h => ⟨le_refl _, h⟩⟩

theorem stepCast_windup (e : Env) (now : ℚ) (s : State) (hrod : s.rodGroup = true)
    (hph : s.castPhase = CastPhase.windup) :
    stepCast e now s =
      if 380 ≤ now - s.castStartAt then
        { s with
          rodAngle := some (-35 * (1 - (1 - min 1 ((now - s.castStartAt) / 380)) ^ 3))
          castPhase := CastPhase.forward
          castStartAt := now }
      else
        { s with
          rodAngle := some (-35 * (1 - (1 - min 1 ((now - s.castStartAt) / 380)) ^ 3)) } := by
  unfold stepCast
  rw [if_neg (by simp [hph, hrod])]
  simp only [hph]
  by_cases h : 380 ≤ now - s.castStartAt
  · rw [if_pos h, if_pos ((ease_done _ 380 (by norm_num)).mpr h)]
  · rw [if_neg h, if_neg (fun h2 => h ((ease_done _ 380 (by norm_num)).mp h2))]

theorem stepCast_forward (e : Env) (now : ℚ) (s : State) (hrod : s.rodGroup = true)
    (hph : s.castPhase = CastPhase.forward) :
    stepCast e now s =
      if 240 ≤ now - s.castStartAt then
        { s with
          rodAngle := some (-35 + 50 * (1 - (1 - min 1 ((now - s.castStartAt) / 240)) ^ 3))
          hookLeft := some (e.castHookRect.left +
            (min (((getBoatSectionIndex e : ℚ) + 2 + 0.5) * (e.innerWidth / 10))
                (e.innerWidth - 20) - e.castHookRect.left) *
              (1 - (1 - min 1 ((now - s.castStartAt) / 240)) ^ 3) - e.boatRect.left - 16)
          castPhase := CastPhase.settle
          castStartAt := now }
      else
        { s with
          rodAngle := some (-35 + 50 * (1 - (1 - min 1 ((now - s.castStartAt) / 240)) ^ 3))
          hookLeft := some (e.castHookRect.left +
            (min (((getBoatSectionIndex e : ℚ) + 2 + 0.5) * (e.innerWidth / 10))
                (e.innerWidth - 20) - e.castHookRect.left) *
              (1 - (1 - min 1 ((now - s.castStartAt) / 240)) ^ 3) - e.boatRect.left - 16) } := by
  unfold stepCast
  rw [if_neg (by simp [hph, hrod])]
  simp only [hph]
  by_cases h : 240 ≤ now - s.castStartAt
  · rw [if_pos h, if_pos ((ease_done _ 240 (by norm_num)).mpr h)]
  · rw [if_neg h, if_neg (fun h2 => h ((ease_done _ 240 (by norm_num)).mp h2))]

theorem stepCast_settle (e : Env) (now : ℚ) (s : State) (hrod : s.rodGroup = true)
    (hph : s.castPhase = CastPhase.settle) :
    stepCast e now s =
      if 280 ≤ now - s.castStartAt then
        { s with rodAngle := some 0, castPhase := CastPhase.idle }
      else
        { s with
          rodAngle := some (15 - 15 * (1 - (1 - min 1 ((now - s.castStartAt) / 280)) ^ 3)) } := by
  unfold stepCast
  rw [if_neg (by simp [hph, hrod])]
  simp only [hph]
  by_cases h : 280 ≤ now - s.castStartAt
  · rw [if_pos h, if_pos ((ease_done _ 280 (by norm_num)).mpr h)]
  · rw [if_neg h, if_neg (fun h2 => h ((ease_done _ 280 (by norm_num)).mp h2))]

theorem stepCast_idle (e : Env) (now : ℚ) (s : State) (hph : s.castPhase = CastPhase.idle) :
    stepCast e now s = s := by
  unfold stepCast
  rw [if_pos (by simp [hph])]

/-! ## Invariants over event sequences -/

theorem run_induction (P : State → Prop) (evs : List Event) :
    (∀ (s : State) (ev : Event), ev ∈ evs → P s → P (ev.apply s)) →
      ∀ s : State, P s → P (run s evs) := by
  induction evs with
  | nil => intro _ s h; exact h
  | cons ev evs ih =>
    intro hstep s h
    show P (run (ev.apply s) evs)
    exact ih (fun t ev2 h2 => hstep t ev2 (List.mem_cons_of_mem _ h2)) _
      (hstep s ev (List.mem_cons_self _ _) h)

theorem loop_unpaused (e : Env) (s : State) (hp : s.paused = false) :
    loop e s = animateHook e
      { s with
        x := wrapX e (s.x + s.speed)
        vy := if s.spacePressed then max (maxRise e) (s.vy - 0.45 * scale e)
          else min (maxFall e) (s.vy + gravity e)
        y := max (max 0 (e.innerHeight / 6 + getFishHalfHeight e + 1))
          (min (e.innerHeight - 40) (s.y +
            (if s.spacePressed then max (maxRise e) (s.vy - 0.45 * scale e)
              else min (maxFall e) (s.vy + gravity e))))
        fishLeft := some (wrapX e (s.x + s.speed))
        fishTop := some (max (max 0 (e.innerHeight / 6 + getFishHalfHeight e + 1))
          (min (e.innerHeight - 40) (s.y +
            (if s.spacePressed then max (maxRise e) (s.vy - 0.45 * scale e)
              else min (maxFall e) (s.vy + gravity e))))) } := by
  unfold loop
  rw [if_neg (by simp [hp])]

theorem startCast_rig (e : Env) (now : ℚ) (s : State) :
    (startCast e now s).dom = s.dom ∧ (startCast e now s).hookState = s.hookState ∧
    (startCast e now s).casting = s.casting ∧ (startCast e now s).rodGroup = s.rodGroup ∧
    (startCast e now s).hookTop = s.hookTop ∧ (startCast e now s).lineHeight = s.lineHeight := by
  unfold startCast
  dsimp only
  split_ifs <;> exact ⟨rfl, rfl, rfl, rfl, rfl, rfl⟩

theorem stepCast_rig (e : Env) (now : ℚ) (s : State) :
    (stepCast e now s).dom = s.dom ∧ (stepCast e now s).hookState = s.hookState ∧
    (stepCast e now s).casting = s.casting ∧ (stepCast e now s).rodGroup = s.rodGroup ∧
    (stepCast e now s).hookTop = s.hookTop ∧ (stepCast e now s).lineHeight = s.lineHeight := by
  unfold stepCast
  dsimp only
  by_cases h : (decide (s.castPhase = CastPhase.idle) || !s.rodGroup) = true
  · rw [if_pos h]; exact ⟨rfl, rfl, rfl, rfl, rfl, rfl⟩
  · rw [if_neg h]
    split <;> (try split_ifs) <;> exact ⟨rfl, rfl, rfl, rfl, rfl, rfl⟩

theorem animateHook_rig (e : Env) (s : State) :
    (animateHook e s).dom = s.dom ∧ (animateHook e s).casting = s.casting ∧
    (animateHook e s).rodGroup = s.rodGroup := by
  unfold animateHook
  dsimp only
  split_ifs <;>
    first
    | exact ⟨rfl, rfl, rfl⟩
    | exact ⟨(startCast_rig e e.now _).1, (startCast_rig e e.now _).2.2.1,
        (startCast_rig e e.now _).2.2.2.1⟩
    | exact ⟨(stepCast_rig e e.now _).1, (stepCast_rig e e.now _).2.2.1,
        (stepCast_rig e e.now _).2.2.2.1⟩

theorem loop_rig (e : Env) (s : State) :
    (loop e s).dom = s.dom ∧ (loop e s).casting = s.casting ∧
    (loop e s).rodGroup = s.rodGroup := by
  cases hp : s.paused with
  | true => rw [loop_of_paused e s hp]; exact ⟨rfl, rfl, rfl⟩
  | false =>
    rw [loop_unpaused e s hp]
    exact animateHook_rig e _

/-! ## Cast phases only with a rod group -/

theorem startCast_wired (e : Env) (now : ℚ) (s : State) (h : CastWired s) :
    CastWired (startCast e now s) := by
  unfold startCast
  dsimp only
  split_ifs with h1 h2
  · exact h
  · exact h
  · intro _
    show s.rodGroup = true
    cases hr : s.rodGroup
    · simp [hr] at h1
    · rfl

theorem stepCast_wired (e : Env) (now : ℚ) (s : State) (h : CastWired s) :
    CastWired (stepCast e now s) := by
  by_cases hg : (decide (s.castPhase = CastPhase.idle) || !s.rodGroup) = true
  · unfold stepCast
    rw [if_pos hg]; exact h
  · intro _
    rw [(stepCast_rig e now s).2.2.2.1]
    cases hr : s.rodGroup
    · simp [hr] at hg
    · rfl

theorem animateHook_wired (e : Env) (s : State) (h : CastWired s) :
    CastWired (animateHook e s) := by
  unfold animateHook
  dsimp only
  split_ifs <;>
    first
    | exact h
    | exact startCast_wired e e.now _ h
    | exact stepCast_wired e e.now _ h

theorem loop_wired (e : Env) (s : State) (h : CastWired s) : CastWired (loop e s) := by
  cases hp : s.paused with
  | true => rw [loop_of_paused e s hp]; exact h
  | false =>
    rw [loop_unpaused e s hp]
    exact animateHook_wired e _ h

theorem castWired_of_sameRig {s t : State} (hst : SameRig s t) (h : CastWired s) :
    CastWired t := by
  obtain ⟨_, _, _, h4, _, h6, _⟩ := hst
  intro ht
  rw [h4]
  exact h (by rw [← h6]; exact ht)

theorem start_wired (e : Env) (dom : Dom) (c : Bool) : CastWired (start e dom c) := by
  unfold start
  dsimp only
  apply loop_wired
  have h0 : CastWired (updateSpeed e (initialState e dom c)) :=
    castWired_of_sameRig (updateSpeed_sameRig e _) (fun h => absurd rfl h)
  split_ifs
  · exact h0
  · exact h0

theorem event_wired (s : State) (ev : Event) (h : CastWired s) : CastWired (ev.apply s) := by
  cases ev with
  | keydown e key =>
    show CastWired (keydown e key s)
    by_cases hC : key = "C"
    · subst hC
      rw [keydown_C]
      exact h
    · exact castWired_of_sameRig (keydown_sameRig e key s hC) h
  | keyup key => exact castWired_of_sameRig (keyup_sameRig key s) h
  | frame e => exact loop_wired e s h
  | resize e => exact castWired_of_sameRig (resize_sameRig e s) h

theorem run_wired (e0 : Env) (dom : Dom) (c : Bool) (evs : List Event) :
    CastWired (run (start e0 dom c) evs) :=
  run_induction CastWired evs (fun s ev _ h => event_wired s ev h) _ (start_wired e0 dom c)

/-! ## Cast phase order and timing -/

/-- C11: in Idle `stepCast` changes nothing; otherwise, in a state where a
cast is under way only with the rod group present (every state reachable
from start-up is such a state, last conjunct), it leaves Windup for Forward
exactly when the time since the phase start is `≥ 380`, Forward for Settle
exactly when it is `≥ 240`, and Settle for Idle exactly when it is `≥ 280`,
one hop per call, setting the phase-start timestamp to `now` on entering
Forward and Settle and leaving it alone otherwise. -/
theorem stepCast_phase_timing (e : Env) (now : ℚ) (s : State) (hw : CastWired s) :
    (s.castPhase = CastPhase.idle → stepCast e now s = s) ∧
    (s.castPhase = CastPhase.windup →
      (380 ≤ now - s.castStartAt →
        (stepCast e now s).castPhase = CastPhase.forward ∧
        (stepCast e now s).castStartAt = now) ∧
      (now - s.castStartAt < 380 →
        (stepCast e now s).castPhase = CastPhase.windup ∧
        (stepCast e now s).castStartAt = s.castStartAt)) ∧
    (s.castPhase = CastPhase.forward →
      (240 ≤ now - s.castStartAt →
        (stepCast e now s).castPhase = CastPhase.settle ∧
        (stepCast e now s).castStartAt = now) ∧
      (now - s.castStartAt < 240 →
        (stepCast e now s).castPhase = CastPhase.forward ∧
        (stepCast e now s).castStartAt = s.castStartAt)) ∧
    (s.castPhase = CastPhase.settle →
      (280 ≤ now - s.castStartAt →
        (stepCast e now s).castPhase = CastPhase.idle ∧
        (stepCast e now s).castStartAt = s.castStartAt) ∧
      (now - s.castStartAt < 280 →
        (stepCast e now s).castPhase = CastPhase.settle ∧
        (stepCast e now s).castStartAt = s.castStartAt)) ∧
    (∀ (e0 : Env) (dom : Dom) (c : Bool) (evs : List Event),
      (run (start e0 dom c) evs).castPhase ≠ CastPhase.idle →
        (run (start e0 dom c) evs).rodGroup = true) := by
  refine ⟨stepCast_idle e now s, fun hph => ?_, fun hph => ?_, fun hph => ?_,
    fun e0 dom c evs => run_wired e0 dom c evs⟩
  · have hrod := hw (by rw [hph]; decide)
    rw [stepCast_windup e now s hrod hph]
    constructor
    · intro h; rw [if_pos h]; exact ⟨rfl, rfl⟩
    · intro h; rw [if_neg (not_le.mpr h)]; exact ⟨hph, rfl⟩
  · have hrod := hw (by rw [hph]; decide)
    rw [stepCast_forward e now s hrod hph]
    constructor
    · intro h; rw [if_pos h]; exact ⟨rfl, rfl⟩
    · intro h; rw [if_neg (not_le.mpr h)]; exact ⟨hph, rfl⟩
  · have hrod := hw (by rw [hph]; decide)
    rw [stepCast_settle e now s hrod hph]
    constructor
    · intro h; rw [if_pos h]; exact ⟨rfl, rfl⟩
    · intro h; rw [if_neg (not_le.mpr h)]; exact ⟨hph, rfl⟩

/-- Witness for C11: a Windup begun at time 0 is left at `now = 380` and
kept at `now = 379`. -/
theorem stepCast_phase_timing_witness :
    ((stepCast (viewport 1200 800) 380 (castingAt CastPhase.windup 0)).castPhase
        = CastPhase.forward ∧
      (stepCast (viewport 1200 800) 380 (castingAt CastPhase.windup 0)).castStartAt = 380) ∧
    ((stepCast (viewport 1200 800) 379 (castingAt CastPhase.windup 0)).castPhase
        = CastPhase.windup ∧
      (stepCast (viewport 1200 800) 379 (castingAt CastPhase.windup 0)).castStartAt =
        (castingAt CastPhase.windup 0).castStartAt) :=
  ⟨((stepCast_phase_timing (viewport 1200 800) 380 (castingAt CastPhase.windup 0)
      (fun _ => rfl)).2.1 rfl).1 (by norm_num [castingAt]),
    ((stepCast_phase_timing (viewport 1200 800) 379 (castingAt CastPhase.windup 0)
      (fun _ => rfl)).2.1 rfl).2 (by norm_num [castingAt])⟩

/-! ## Feature flag off -/

theorem startCast_noRodIdle (e : Env) (now : ℚ) (s : State) (h : NoRodIdle s) :
    NoRodIdle (startCast e now s) := by
  unfold startCast
  rw [if_pos (by simp [h.1])]
  exact h

theorem stepCast_noRodIdle (e : Env) (now : ℚ) (s : State) (h : NoRodIdle s) :
    NoRodIdle (stepCast e now s) := by
  rw [stepCast_idle e now s h.2.1]
  exact h

theorem animateHook_noRodIdle (e : Env) (s : State) (h : NoRodIdle s) :
    NoRodIdle (animateHook e s) := by
  unfold animateHook
  dsimp only
  split_ifs <;>
    first
    | exact h
    | exact startCast_noRodIdle e e.now _ h
    | exact stepCast_noRodIdle e e.now _ h

theorem loop_noRodIdle (e : Env) (s : State) (h : NoRodIdle s) : NoRodIdle (loop e s) := by
  cases hp : s.paused with
  | true => rw [loop_of_paused e s hp]; exact h
  | false =>
    rw [loop_unpaused e s hp]
    exact animateHook_noRodIdle e _ h

theorem noRodIdle_of_sameRig {s t : State} (hst : SameRig s t) (h : NoRodIdle s) :
    NoRodIdle t := by
  obtain ⟨_, _, _, h4, h5, h6, _⟩ := hst
  unfold NoRodIdle
  rw [h4, h5, h6]
  exact h

theorem start_noRodIdle (e : Env) (dom : Dom) : NoRodIdle (start e dom false) := by
  unfold start
  dsimp only
  apply loop_noRodIdle
  have h0 : NoRodIdle (updateSpeed e (initialState e dom false)) :=
    noRodIdle_of_sameRig (updateSpeed_sameRig e _) ⟨by simp [initialState], rfl, rfl⟩
  split_ifs
  · exact h0
  · exact h0

theorem event_noRodIdle (s : State) (ev : Event) (h : NoRodIdle s) :
    NoRodIdle (ev.apply s) := by
  cases ev with
  | keydown e key =>
    show NoRodIdle (keydown e key s)
    by_cases hC : key = "C"
    · subst hC
      rw [keydown_C]
      exact h
    · exact noRodIdle_of_sameRig (keydown_sameRig e key s hC) h
  | keyup key => exact noRodIdle_of_sameRig (keyup_sameRig key s) h
  | frame e => exact loop_noRodIdle e s h
  | resize e => exact noRodIdle_of_sameRig (resize_sameRig e s) h

theorem event_casting (s : State) (ev : Event)
    (hC : ∀ (e : Env) (key : String), ev = Event.keydown e key → key ≠ "C") :
    (ev.apply s).casting = s.casting := by
  cases ev with
  | keydown e key => exact (keydown_sameRig e key s (hC e key rfl)).2.2.1
  | keyup key => exact (keyup_sameRig key s).2.2.1
  | frame e => exact (loop_rig e s).2.1
  | resize e => exact (resize_sameRig e s).2.2.1

theorem start_casting (e : Env) (dom : Dom) (c : Bool) : (start e dom c).casting = c := by
  unfold start
  dsimp only
  rw [(loop_rig e _).2.1]
  split_ifs
  · exact (updateSpeed_sameRig e _).2.2.1
  · exact (updateSpeed_sameRig e _).2.2.1

theorem animateHook_drop_eq (e : Env) (s : State) (hl : s.dom.lineEl = true)
    (hh : s.dom.hookEl = true) (hph : s.hookState.phase = HookPhase.drop) :
    animateHook e s =
      if s.casting then startCast e e.now (hookDropped e s) else hookDropped e s := by
  unfold animateHook hookDropped
  dsimp only
  rw [if_neg (by simp [hl, hh]), if_pos hph]

theorem animateHook_drop_cast (e : Env) (s : State) (hl : s.dom.lineEl = true)
    (hh : s.dom.hookEl = true) (hph : s.hookState.phase = HookPhase.drop)
    (hc : s.casting = true) (hrod : s.rodGroup = true) (hone : s.hasCastOnce = false)
    (hsec : getBoatSectionIndex e < 8) :
    (animateHook e s).castPhase = CastPhase.windup ∧ (animateHook e s).hasCastOnce = true ∧
    (animateHook e s).castStartAt = e.now ∧ (animateHook e s).casting = true := by
  rw [animateHook_drop_eq e s hl hh hph, if_pos hc,
    startCast_of_ready e e.now (hookDropped e s) hone hrod, if_neg (not_le.mpr hsec)]
  exact ⟨rfl, rfl, rfl, hc⟩

theorem start_casts (e : Env) (dom : Dom) (hl : dom.lineEl = true) (hh : dom.hookEl = true)
    (hb : dom.boat = true) (ha : dom.armPath = true) (hr : dom.rodPath = true)
    (hs : dom.svgOk = true) (hsec : getBoatSectionIndex e < 8) :
    (start e dom true).castPhase = CastPhase.windup ∧ (start e dom true).hasCastOnce = true ∧
    (start e dom true).castStartAt = e.now ∧ (start e dom true).casting = true := by
  have hu := updateSpeed_sameRig e (initialState e dom true)
  have hp : (updateSpeed e (initialState e dom true)).paused = false :=
    (updateSpeed_fields e _).2.2.2.2.2.2.2
  have hl2 : (updateSpeed e (initialState e dom true)).dom.lineEl = true :=
    (congrArg Dom.lineEl hu.1).trans hl
  have hh2 : (updateSpeed e (initialState e dom true)).dom.hookEl = true :=
    (congrArg Dom.hookEl hu.1).trans hh
  have hph : (updateSpeed e (initialState e dom true)).hookState.phase = HookPhase.drop :=
    congrArg HookState.phase hu.2.1
  have hc : (updateSpeed e (initialState e dom true)).casting = true := hu.2.2.1
  have hrod : (updateSpeed e (initialState e dom true)).rodGroup = true := by
    rw [hu.2.2.2.1]
    simp [initialState, hb, ha, hr, hs]
  have hone : (updateSpeed e (initialState e dom true)).hasCastOnce = false := hu.2.2.2.2.1
  have key : ∀ t : State, t.paused = false → t.dom.lineEl = true → t.dom.hookEl = true →
      t.hookState.phase = HookPhase.drop → t.casting = true → t.rodGroup = true →
      t.hasCastOnce = false →
      (loop e t).castPhase = CastPhase.windup ∧ (loop e t).hasCastOnce = true ∧
      (loop e t).castStartAt = e.now ∧ (loop e t).casting = true := by
    intro t h1 h2 h3 h4 h5 h6 h7
    rw [loop_unpaused e t h1]
    exact animateHook_drop_cast e _ h2 h3 h4 h5 h6 h7 hsec
  unfold start
  dsimp only
  split_ifs
  · exact key _ hp hl2 hh2 hph hc hrod hone
  · exact key _ hp hl2 hh2 hph hc hrod hone

/-- C12 (as amended): when the script starts with `FEATURES.casting` false,
the cast phase is Idle and the one-shot flag false (and the rod group
absent) in every state reached by any sequence of frames, key events and
resizes, a `'C'` key-down included: it flips the flag on the running page
but no rod group was built, so no cast can start. And in a run with no
`'C'` key-down the flag keeps its start-up value, so that whenever it is
false the cast phase is Idle and the one-shot flag false. -/
theorem flag_off_stays_idle (e0 : Env) (dom : Dom) (c : Bool) (evs : List Event) :
    ((run (start e0 dom false) evs).castPhase = CastPhase.idle ∧
      (run (start e0 dom false) evs).hasCastOnce = false ∧
      (run (start e0 dom false) evs).rodGroup = false) ∧
    ((∀ ev ∈ evs, ∀ (e : Env) (key : String), ev = Event.keydown e key → key ≠ "C") →
      (run (start e0 dom c) evs).casting = c ∧
      ((run (start e0 dom c) evs).casting = false →
        (run (start e0 dom c) evs).castPhase = CastPhase.idle ∧
        (run (start e0 dom c) evs).hasCastOnce = false)) := by
  have inv : NoRodIdle (run (start e0 dom false) evs) :=
    run_induction NoRodIdle evs (fun s ev _ h => event_noRodIdle s ev h) _
      (start_noRodIdle e0 dom)
  refine ⟨⟨inv.2.1, inv.2.2, inv.1⟩, fun hC => ?_⟩
  have hkeep : (run (start e0 dom c) evs).casting = c :=
    run_induction (fun s => s.casting = c) evs
      (fun s ev hev h => (event_casting s ev (hC ev hev)).trans h) _ (start_casting e0 dom c)
  refine ⟨hkeep, fun hoff => ?_⟩
  have hc : c = false := hkeep.symm.trans hoff
  subst hc
  exact ⟨inv.2.1, inv.2.2⟩

/-- Witness for C12: started with the flag off on a full page, a frame, a
`'C'` press and a frame leave the cast Idle; and without the `'C'` press
the flag stays off as well. -/
theorem flag_off_stays_idle_witness :
    ((run (start (viewport 1200 800) fullDom false)
        [Event.frame (viewport 1200 800), Event.keydown (viewport 1200 800) "C",
          Event.frame (viewport 1200 800)]).castPhase = CastPhase.idle ∧
      (run (start (viewport 1200 800) fullDom false)
        [Event.frame (viewport 1200 800), Event.keydown (viewport 1200 800) "C",
          Event.frame (viewport 1200 800)]).hasCastOnce = false) ∧
    (run (start (viewport 1200 800) fullDom false)
        [Event.frame (viewport 1200 800), Event.keydown (viewport 1200 800) " ",
          Event.frame (viewport 1200 800)]).casting = false :=
  ⟨⟨(flag_off_stays_idle (viewport 1200 800) fullDom false
      [Event.frame (viewport 1200 800), Event.keydown (viewport 1200 800) "C",
        Event.frame (viewport 1200 800)]).1.1,
    (flag_off_stays_idle (viewport 1200 800) fullDom false
      [Event.frame (viewport 1200 800), Event.keydown (viewport 1200 800) "C",
        Event.frame (viewport 1200 800)]).1.2.1⟩,
    ((flag_off_stays_idle (viewport 1200 800) fullDom false
      [Event.frame (viewport 1200 800), Event.keydown (viewport 1200 800) " ",
        Event.frame (viewport 1200 800)]).2
      (by
        intro ev hev e key h
        simp only [List.mem_cons, List.mem_singleton, List.not_mem_nil, or_false] at hev
        rcases hev with rfl | rfl | rfl <;> first | (cases h; done) | (cases h; decide))).1⟩

/-- C12 fails as stated: on a full page at 1200x800 started with the flag
on, the first frame starts the cast (boat in section 0); a `'C'` key-down
then sets `FEATURES.casting` to false on the running page while the cast
phase is still Windup and the one-shot flag is true. -/
theorem flag_off_counterexample :
    (run (start (viewport 1200 800) fullDom true)
        [Event.keydown (viewport 1200 800) "C"]).casting = false ∧
    (run (start (viewport 1200 800) fullDom true)
        [Event.keydown (viewport 1200 800) "C"]).castPhase = CastPhase.windup ∧
    (run (start (viewport 1200 800) fullDom true)
        [Event.keydown (viewport 1200 800) "C"]).hasCastOnce = true := by
  obtain ⟨h1, h2, _, h4⟩ := start_casts (viewport 1200 800) fullDom rfl rfl rfl rfl rfl rfl
    (by rw [getBoatSectionIndex_lt_eight]; norm_num [viewport])
  show (keydown (viewport 1200 800) "C" (start (viewport 1200 800) fullDom true)).casting = false ∧
    (keydown (viewport 1200 800) "C" (start (viewport 1200 800) fullDom true)).castPhase
      = CastPhase.windup ∧
    (keydown (viewport 1200 800) "C" (start (viewport 1200 800) fullDom true)).hasCastOnce = true
  rw [keydown_C]
  exact ⟨by show (!(start (viewport 1200 800) fullDom true).casting) = false; rw [h4]; rfl,
    h1, h2⟩

/-! ## Hook phase -/

theorem animateHook_drop (e : Env) (s : State) (hl : s.dom.lineEl = true)
    (hh : s.dom.hookEl = true) (hph : s.hookState.phase = HookPhase.drop) :
    (animateHook e s).hookState =
      { phase := HookPhase.jig, lastChange := e.now, targetY := e.innerHeight - 4 - 30 } := by
  unfold animateHook
  dsimp only
  rw [if_neg (by simp [hl, hh]), if_pos hph]
  split_ifs
  · exact (startCast_rig e e.now _).2.1
  · rfl

theorem animateHook_jig_phase (e : Env) (s : State)
    (hph : s.hookState.phase = HookPhase.jig) :
    (animateHook e s).hookState.phase = HookPhase.jig ∧
    (animateHook e s).hasCastOnce = s.hasCastOnce := by
  unfold animateHook
  dsimp only
  split_ifs <;>
    first
    | exact ⟨hph, rfl⟩
    | exact ⟨(congrArg HookState.phase (stepCast_rig e e.now _).2.1).trans hph,
        stepCast_hasCastOnce e e.now _⟩
    | (exfalso; simp_all)

theorem dropRuns_of_jig (es : List Env) :
    ∀ s : State, s.hookState.phase = HookPhase.jig →
      dropRuns s es = 0 ∧
      (es.foldl (fun t e2 => animateHook e2 t) s).hookState.phase = HookPhase.jig := by
  induction es with
  | nil => intro s h; exact ⟨rfl, h⟩
  | cons e es ih =>
    intro s h
    obtain ⟨h1, h2⟩ := ih (animateHook e s) (animateHook_jig_phase e s h).1
    refine ⟨?_, h2⟩
    show (if _ then 1 else 0) + dropRuns (animateHook e s) es = 0
    rw [if_neg (by rw [h]; simp), h1]

theorem stepCast_idle_phase (e : Env) (now : ℚ) (s : State)
    (h : s.castPhase = CastPhase.idle) : (stepCast e now s).castPhase = CastPhase.idle := by
  rw [stepCast_idle e now s h]
  exact h

theorem animateHook_jig_idle (e : Env) (s : State)
    (hph : s.hookState.phase = HookPhase.jig) (hidle : s.castPhase = CastPhase.idle) :
    (animateHook e s).castPhase = CastPhase.idle := by
  unfold animateHook
  dsimp only
  split_ifs <;>
    first
    | exact hidle
    | exact stepCast_idle_phase e e.now _ hidle
    | (exfalso; simp_all)

theorem jig_calls_no_check (es : List Env) :
    ∀ s : State, s.hookState.phase = HookPhase.jig →
      (es.foldl (fun t e2 => animateHook e2 t) s).hasCastOnce = s.hasCastOnce ∧
      (s.castPhase = CastPhase.idle →
        (es.foldl (fun t e2 => animateHook e2 t) s).castPhase = CastPhase.idle) := by
  induction es with
  | nil => intro s _; exact ⟨rfl, fun h => h⟩
  | cons e es ih =>
    intro s h
    obtain ⟨h1, h2⟩ := ih (animateHook e s) (animateHook_jig_phase e s h).1
    exact ⟨h1.trans (animateHook_jig_phase e s h).2,
      fun hidle => h2 (animateHook_jig_idle e s h hidle)⟩

/-- C13: when the line and hook elements exist, an `animateHook` call in
phase Drop moves the phase to Jig and records the current time, and a call
in phase Jig leaves the phase at Jig; so over any non-empty sequence of
`animateHook` calls from phase Drop the Drop branch runs exactly once, at
the first call, and the phase is Jig ever after. The cast eligibility check
goes with the Drop branch: the Drop call is its assignments followed, when
the flag is on, by `startCast(now)` (which starts the cast when the rod
group exists, the one-shot flag is clear and the boat section is `< 8`),
and no call in phase Jig checks again: over any later calls the one-shot
flag is unchanged and an Idle cast stays Idle, so a boat found in section
`≥ 8` by the Drop call never casts. -/
theorem hook_drop_once (e : Env) (s : State) (hl : s.dom.lineEl = true)
    (hh : s.dom.hookEl = true) :
    (s.hookState.phase = HookPhase.drop →
      (animateHook e s).hookState.phase = HookPhase.jig ∧
      (animateHook e s).hookState.lastChange = e.now) ∧
    (s.hookState.phase = HookPhase.jig →
      (animateHook e s).hookState.phase = HookPhase.jig ∧
      (animateHook e s).hasCastOnce = s.hasCastOnce) ∧
    (s.hookState.phase = HookPhase.drop → ∀ es : List Env,
      dropRuns s (e :: es) = 1 ∧
      ((e :: es).foldl (fun t e2 => animateHook e2 t) s).hookState.phase = HookPhase.jig) ∧
    (s.hookState.phase = HookPhase.jig → ∀ es : List Env, dropRuns s es = 0) ∧
    (s.hookState.phase = HookPhase.drop →
      animateHook e s =
        if s.casting then startCast e e.now (hookDropped e s) else hookDropped e s) ∧
    (s.hookState.phase = HookPhase.drop → s.casting = true → s.rodGroup = true →
      s.hasCastOnce = false → getBoatSectionIndex e < 8 →
      (animateHook e s).castPhase = CastPhase.windup ∧
      (animateHook e s).hasCastOnce = true ∧
      (animateHook e s).castStartAt = e.now) ∧
    (s.hookState.phase = HookPhase.jig → ∀ es : List Env,
      (es.foldl (fun t e2 => animateHook e2 t) s).hasCastOnce = s.hasCastOnce ∧
      (s.castPhase = CastPhase.idle →
        (es.foldl (fun t e2 => animateHook e2 t) s).castPhase = CastPhase.idle)) ∧
    (s.hookState.phase = HookPhase.drop → s.casting = true → s.rodGroup = true →
      s.hasCastOnce = false → s.castPhase = CastPhase.idle → 8 ≤ getBoatSectionIndex e →
      ∀ es : List Env,
        ((e :: es).foldl (fun t e2 => animateHook e2 t) s).castPhase = CastPhase.idle ∧
        ((e :: es).foldl (fun t e2 => animateHook e2 t) s).hasCastOnce = false) := by
  refine ⟨fun hph => ?_, animateHook_jig_phase e s, fun hph es => ?_,
    fun hph es => (dropRuns_of_jig es s hph).1, animateHook_drop_eq e s hl hh,
    fun hph hc hrod hone hsec => ?_, fun hph es => jig_calls_no_check es s hph,
    fun hph hc hrod hone hidle hsec es => ?_⟩
  · rw [animateHook_drop e s hl hh hph]
    exact ⟨rfl, rfl⟩
  · have hj : (animateHook e s).hookState.phase = HookPhase.jig := by
      rw [animateHook_drop e s hl hh hph]
    obtain ⟨h1, h2⟩ := dropRuns_of_jig es (animateHook e s) hj
    refine ⟨?_, h2⟩
    show (if _ then 1 else 0) + dropRuns (animateHook e s) es = 1
    rw [if_pos ⟨hl, hh, hph⟩, h1]
  · obtain ⟨h1, h2, h3, _⟩ := animateHook_drop_cast e s hl hh hph hc hrod hone hsec
    exact ⟨h1, h2, h3⟩
  · have hj : (animateHook e s).hookState.phase = HookPhase.jig := by
      rw [animateHook_drop e s hl hh hph]
    have heq : animateHook e s = hookDropped e s := by
      rw [animateHook_drop_eq e s hl hh hph, if_pos hc,
        startCast_of_ready e e.now (hookDropped e s) hone hrod, if_pos hsec]
    have hi : (animateHook e s).castPhase = CastPhase.idle := by rw [heq]; exact hidle
    have ho : (animateHook e s).hasCastOnce = false := by rw [heq]; exact hone
    obtain ⟨h1, h2⟩ := jig_calls_no_check es (animateHook e s) hj
    exact ⟨h2 hi, h1.trans ho⟩

/-- Witness for C13: three calls on a full page from the initial (Drop)
state: with the flag off the Drop branch runs once; with the flag on and
the boat in section 0 the Drop call starts the cast, and the two later
calls leave the one-shot flag as the Drop call set it. -/
theorem hook_drop_once_witness :
    (dropRuns (initialState (viewport 1200 800) fullDom false)
        [viewport 1200 800, viewport 1200 800, viewport 1200 800] = 1 ∧
      ([viewport 1200 800, viewport 1200 800, viewport 1200 800].foldl
        (fun t e2 => animateHook e2 t)
        (initialState (viewport 1200 800) fullDom false)).hookState.phase = HookPhase.jig) ∧
    ((animateHook (viewport 1200 800)
        (initialState (viewport 1200 800) fullDom true)).castPhase = CastPhase.windup ∧
      (animateHook (viewport 1200 800)
        (initialState (viewport 1200 800) fullDom true)).hasCastOnce = true ∧
      (animateHook (viewport 1200 800)
        (initialState (viewport 1200 800) fullDom true)).castStartAt = (viewport 1200 800).now) :=
  ⟨(hook_drop_once (viewport 1200 800) (initialState (viewport 1200 800) fullDom false)
      rfl rfl).2.2.1 rfl [viewport 1200 800, viewport 1200 800],
    (hook_drop_once (viewport 1200 800) (initialState (viewport 1200 800) fullDom true)
      rfl rfl).2.2.2.2.2.1 rfl rfl rfl rfl
      (by rw [getBoatSectionIndex_lt_eight]; norm_num [viewport])⟩

/-! ## Speed index -/

theorem loop_speedIndex (e : Env) (s : State) : (loop e s).speedIndex = s.speedIndex := by
  cases hp : s.paused with
  | true => rw [loop_of_paused e s hp]
  | false =>
    rw [loop_unpaused e s hp]
    exact (animateHook_fish e _).2.2.2.2.2.1

theorem start_speedIndex (e : Env) (dom : Dom) (c : Bool) : (start e dom c).speedIndex = 0 := by
  unfold start
  dsimp only
  rw [loop_speedIndex]
  split_ifs
  · exact (updateSpeed_fields e _).2.1
  · exact (updateSpeed_fields e _).2.1

theorem keydown_speedIndex_le (e : Env) (key : String) (s : State) (h : s.speedIndex ≤ 2) :
    (keydown e key s).speedIndex ≤ 2 := by
  by_cases hC : key = "C"
  · subst hC
    rw [keydown_C]
    exact h
  by_cases hsp : key = " "
  · subst hsp
    rw [keydown_space]
    split_ifs <;> exact h
  by_cases hp : key = "p"
  · subst hp
    rw [keydown_p]
    exact h
  by_cases hR : key = "ArrowRight"
  · subst hR
    rw [keydown_ArrowRight, (updateSpeed_fields e _).2.1]
    split_ifs
    · exact min_le_left _ _
    · exact le_trans (Nat.sub_le _ _) h
    · exact Nat.zero_le _
  by_cases hL : key = "ArrowLeft"
  · subst hL
    rw [keydown_ArrowLeft, (updateSpeed_fields e _).2.1]
    split_ifs
    · exact min_le_left _ _
    · exact le_trans (Nat.sub_le _ _) h
    · exact Nat.zero_le _
  rw [keydown_other e key s hC hsp hp hR hL]
  exact h

theorem keyup_speedIndex (key : String) (s : State) :
    (keyup key s).speedIndex = s.speedIndex := by
  unfold keyup
  split_ifs <;> rfl

theorem event_speedIndex_le (s : State) (ev : Event) (h : s.speedIndex ≤ 2) :
    (ev.apply s).speedIndex ≤ 2 := by
  cases ev with
  | keydown e key => exact keydown_speedIndex_le e key s h
  | keyup key => exact (keyup_speedIndex key s).le.trans h
  | frame e => exact (loop_speedIndex e s).le.trans h
  | resize e => exact (resize_fields e s).2.1.le.trans h

/-- C19: starting from speed index 0, after any finite sequence of
key-down events (any keys), key-up events, frames and resizes the speed
index is at most 2 (it is a natural number, so it lies in `[0, 2]`), and
`BASE_SPEEDS[index]` is defined. -/
theorem speedIndex_in_range (s0 : State) (evs : List Event) (h0 : s0.speedIndex = 0) :
    (run s0 evs).speedIndex ≤ 2 ∧
    ∃ b, BASE_SPEEDS[(run s0 evs).speedIndex]? = some b := by
  have h : (run s0 evs).speedIndex ≤ 2 :=
    run_induction (fun s => s.speedIndex ≤ 2) evs (fun s ev _ hs => event_speedIndex_le s ev hs)
      s0 (by show s0.speedIndex ≤ 2; rw [h0]; exact Nat.zero_le _)
  exact ⟨h, _, BASE_SPEEDS_getD _ h⟩

/-- Witness for C19: four right-steps, a frame and a resize from the
initial state. -/
theorem speedIndex_in_range_witness :
    (run (initialState (viewport 1200 800) fullDom false)
      [Event.keydown (viewport 1200 800) "ArrowRight",
        Event.keydown (viewport 1200 800) "ArrowRight",
        Event.keydown (viewport 1200 800) "ArrowRight",
        Event.keydown (viewport 1200 800) "ArrowRight",
        Event.frame (viewport 1200 800), Event.resize (viewport 900 600)]).speedIndex ≤ 2 :=
  (speedIndex_in_range (initialState (viewport 1200 800) fullDom false) _ rfl).1

/-! ## What a jig frame computes -/

theorem animateHook_jig (e : Env) (s : State) (hl : s.dom.lineEl = true)
    (hh : s.dom.hookEl = true) (hph : s.hookState.phase = HookPhase.jig) :
    (animateHook e s).hookState = jigRetarget e s.hookState ∧
    (animateHook e s).hookTop =
      some (jigClampedTop e (jigRetarget e s.hookState).targetY
        - e.hookRect.height / 2 - e.boatRect.top) := by
  unfold animateHook jigRetarget jigClampedTop
  dsimp only
  rw [if_neg (by simp [hl, hh]), if_neg (by rw [hph]; decide)]
  by_cases hc : s.casting = true
  · rw [if_pos hc]
    exact ⟨(stepCast_rig e e.now _).2.1, (stepCast_rig e e.now _).2.2.2.2.1⟩
  · rw [if_neg hc]
    exact ⟨rfl, rfl⟩

theorem start_dom (e : Env) (dom : Dom) (c : Bool) : (start e dom c).dom = dom := by
  unfold start
  dsimp only
  rw [(loop_rig e _).1]
  split_ifs
  · exact (updateSpeed_sameRig e _).1
  · exact (updateSpeed_sameRig e _).1

theorem loop_drop (e : Env) (s : State) (hp : s.paused = false) (hl : s.dom.lineEl = true)
    (hh : s.dom.hookEl = true) (hph : s.hookState.phase = HookPhase.drop) :
    (loop e s).hookState =
      { phase := HookPhase.jig, lastChange := e.now, targetY := e.innerHeight - 4 - 30 } := by
  rw [loop_unpaused e s hp]
  exact animateHook_drop e _ hl hh hph

theorem start_hookState (e : Env) (dom : Dom) (c : Bool) (hl : dom.lineEl = true)
    (hh : dom.hookEl = true) :
    (start e dom c).hookState =
      { phase := HookPhase.jig, lastChange := e.now, targetY := e.innerHeight - 4 - 30 } := by
  have hu := updateSpeed_sameRig e (initialState e dom c)
  have hp : (updateSpeed e (initialState e dom c)).paused = false :=
    (updateSpeed_fields e _).2.2.2.2.2.2.2
  have hl2 : (updateSpeed e (initialState e dom c)).dom.lineEl = true := by
    rw [← hl]; exact congrArg Dom.lineEl hu.1
  have hh2 : (updateSpeed e (initialState e dom c)).dom.hookEl = true := by
    rw [← hh]; exact congrArg Dom.hookEl hu.1
  have hph : (updateSpeed e (initialState e dom c)).hookState.phase = HookPhase.drop :=
    congrArg HookState.phase hu.2.1
  unfold start
  dsimp only
  split_ifs
  · exact loop_drop e _ hp hl2 hh2 hph
  · exact loop_drop e _ hp hl2 hh2 hph

/-! ## Jig step -/

/-- C14 (as amended): in a Jig frame (line and hook present) the new hook
centre Y is `c = min((h - 4) - 12, max(h/6 + 40, hookY + 0.14 * (targetY -
hookY)))`, with `hookY` the measured hook centre and `targetY` the target
in force after the frame's possible re-target; the hook's `top` is written
as `c - hookHeight/2 - boatTop`. `c ≤ (h - 4) - 12` always holds, and
`h/6 + 40 ≤ c` holds whenever the interval is not empty, that is when
`h/6 + 40 ≤ (h - 4) - 12`. -/
theorem jig_step_clamped (e : Env) (s : State) (hl : s.dom.lineEl = true)
    (hh : s.dom.hookEl = true) (hph : s.hookState.phase = HookPhase.jig) :
    (animateHook e s).hookTop =
      some (jigClampedTop e (animateHook e s).hookState.targetY
        - e.hookRect.height / 2 - e.boatRect.top) ∧
    jigClampedTop e (animateHook e s).hookState.targetY =
      min (e.innerHeight - 4 - 12) (max (e.innerHeight / 6 + 40)
        ((e.hookRect.top + e.hookRect.height / 2) +
          0.14 * ((animateHook e s).hookState.targetY
            - (e.hookRect.top + e.hookRect.height / 2)))) ∧
    jigClampedTop e (animateHook e s).hookState.targetY ≤ e.innerHeight - 4 - 12 ∧
    (e.innerHeight / 6 + 40 ≤ e.innerHeight - 4 - 12 →
      e.innerHeight / 6 + 40 ≤ jigClampedTop e (animateHook e s).hookState.targetY) := by
  obtain ⟨h1, h2⟩ := animateHook_jig e s hl hh hph
  rw [h1]
  refine ⟨h2, ?_, ?_, fun hfit => ?_⟩
  · unfold jigClampedTop
    dsimp only
    congr 2
    ring
  · exact min_le_left _ _
  · exact le_min hfit (le_max_left _ _)

/-- Witness for C14: the second frame of a full page at 1200x800. -/
theorem jig_step_clamped_witness :
    (viewport 1200 800).innerHeight / 6 + 40 ≤
      jigClampedTop (viewport 1200 800)
        (animateHook (viewport 1200 800)
          (start (viewport 1200 800) fullDom false)).hookState.targetY :=
  (jig_step_clamped (viewport 1200 800) (start (viewport 1200 800) fullDom false)
    (by rw [start_dom]; rfl) (by rw [start_dom]; rfl)
    (by rw [start_hookState _ _ _ rfl rfl])).2.2.2 (by norm_num [viewport])

/-- C14 fails as stated: in a 60px-high viewport the interval
`[h/6 + 40, (h - 4) - 12] = [50, 44]` is empty; the second frame of a full
page computes the hook centre `44` (hook `top` 26 for an 36px-high hook),
which is below `h/6 + 40 = 50`. -/
theorem jig_step_lower_counterexample :
    (animateHook (viewport 1200 60) (start (viewport 1200 60) fullDom false)).hookTop
        = some (44 - 36 / 2 - 0) ∧
    jigClampedTop (viewport 1200 60)
        (animateHook (viewport 1200 60)
          (start (viewport 1200 60) fullDom false)).hookState.targetY = 44 ∧
    ¬ ((viewport 1200 60).innerHeight / 6 + 40 ≤
      jigClampedTop (viewport 1200 60)
        (animateHook (viewport 1200 60)
          (start (viewport 1200 60) fullDom false)).hookState.targetY) := by
  obtain ⟨h1, h2⟩ := animateHook_jig (viewport 1200 60) (start (viewport 1200 60) fullDom false)
    (by rw [start_dom]; rfl) (by rw [start_dom]; rfl) (by rw [start_hookState _ _ _ rfl rfl])
  rw [start_hookState _ _ _ rfl rfl] at h1 h2
  have hc : jigClampedTop (viewport 1200 60)
      (animateHook (viewport 1200 60)
        (start (viewport 1200 60) fullDom false)).hookState.targetY = 44 := by
    rw [h1]
    norm_num [jigClampedTop, jigRetarget, viewport]
  refine ⟨?_, hc, ?_⟩
  · rw [h2]
    norm_num [jigClampedTop, jigRetarget, viewport]
  · rw [hc]
    norm_num [viewport]

/-! ## Hook target -/

theorem animateHook_inBand (h : ℚ) (e : Env) (s : State) (hfit : h / 6 + 60 ≤ h - 4 - 30)
    (he : HookEnvOk h e) (hs : TargetInBand h s) : TargetInBand h (animateHook e s) := by
  obtain ⟨hl, hh, hph, hlo, hhi⟩ := hs
  obtain ⟨he1, he2, _, he4⟩ := he
  have hj := (animateHook_jig e s hl hh hph).1
  refine ⟨by rw [(animateHook_rig e s).1]; exact hl, by rw [(animateHook_rig e s).1]; exact hh,
    (animateHook_jig_phase e s hph).1, ?_, ?_⟩
  · rw [hj]
    unfold jigRetarget
    dsimp only
    split_ifs
    · show h / 6 + 60 ≤ max _ _
      rw [he1]
      exact le_max_left _ _
    · exact hlo
  · rw [hj]
    unfold jigRetarget
    dsimp only
    split_ifs
    · show max _ _ ≤ h - 4 - 12
      rw [he1]
      exact max_le (by linarith) (by linarith)
    · exact hhi

theorem loop_inBand (h : ℚ) (e : Env) (s : State) (hfit : h / 6 + 60 ≤ h - 4 - 30)
    (he : HookEnvOk h e) (hs : TargetInBand h s) : TargetInBand h (loop e s) := by
  cases hp : s.paused with
  | true => rw [loop_of_paused e s hp]; exact hs
  | false =>
    rw [loop_unpaused e s hp]
    exact animateHook_inBand h e _ hfit he hs

theorem targetInBand_of_sameRig {h : ℚ} {s t : State} (hst : SameRig s t)
    (hs : TargetInBand h s) : TargetInBand h t := by
  obtain ⟨h1, h2, _⟩ := hst
  unfold TargetInBand
  rw [h1, h2]
  exact hs

theorem start_inBand (h : ℚ) (e : Env) (dom : Dom) (c : Bool) (hl : dom.lineEl = true)
    (hh : dom.hookEl = true) (hfit : h / 6 + 60 ≤ h - 4 - 30) (he : e.innerHeight = h) :
    TargetInBand h (start e dom c) := by
  unfold TargetInBand
  rw [start_dom, start_hookState e dom c hl hh, he]
  exact ⟨hl, hh, rfl, hfit, by show h - 4 - 30 ≤ h - 4 - 12; linarith⟩

theorem event_inBand (h : ℚ) (s : State) (ev : Event) (hfit : h / 6 + 60 ≤ h - 4 - 30)
    (he : ∀ e, ev.env? = some e → HookEnvOk h e) (hs : TargetInBand h s) :
    TargetInBand h (ev.apply s) := by
  cases ev with
  | keydown e key =>
    show TargetInBand h (keydown e key s)
    by_cases hC : key = "C"
    · subst hC
      rw [keydown_C]
      exact hs
    · exact targetInBand_of_sameRig (keydown_sameRig e key s hC) hs
  | keyup key => exact targetInBand_of_sameRig (keyup_sameRig key s) hs
  | frame e => exact loop_inBand h e s hfit (he e rfl) hs
  | resize e => exact targetInBand_of_sameRig (resize_sameRig e s) hs

/-- C15 (as amended): on a page with the line and hook, in a viewport of
fixed height `h` with `h/6 + 60 ≤ (h - 4) - 30`, in every state reached
after start-up (whose first frame runs the Drop branch and sets
`targetY = bottom - 30`) by frames, key events and same-height resizes in
which the hop draw lies in `[0, 1)` and the measured hook centre is at most
`bottom + 18`, the hook is in phase Jig with
`waterline + 60 ≤ targetY ≤ bottom - 12`, where `waterline = h/6` and
`bottom = h - 4`; a re-target sets
`targetY = max(waterline + 60, hookY - hop)` with
`hop = 30 + 60 * random` in `[30, 90)`. -/
theorem hook_target_in_band (h : ℚ) (e0 : Env) (dom : Dom) (c : Bool) (evs : List Event)
    (hl : dom.lineEl = true) (hh : dom.hookEl = true) (hfit : h / 6 + 60 ≤ h - 4 - 30)
    (h0 : e0.innerHeight = h)
    (henv : ∀ ev ∈ evs, ∀ e, ev.env? = some e → HookEnvOk h e) :
    ((run (start e0 dom c) evs).hookState.phase = HookPhase.jig ∧
      h / 6 + 60 ≤ (run (start e0 dom c) evs).hookState.targetY ∧
      (run (start e0 dom c) evs).hookState.targetY ≤ h - 4 - 12) ∧
    (∀ (e : Env) (s : State), s.dom.lineEl = true → s.dom.hookEl = true →
      s.hookState.phase = HookPhase.jig →
      e.now - s.hookState.lastChange > 600 + e.random1 * 600 →
      0 ≤ e.random2 → e.random2 < 1 →
      ∃ hop : ℚ, 30 ≤ hop ∧ hop < 90 ∧
        (animateHook e s).hookState.targetY =
          max (e.innerHeight / 6 + 60) (e.hookRect.top + e.hookRect.height / 2 - hop) ∧
        (animateHook e s).hookState.lastChange = e.now) := by
  have inv : TargetInBand h (run (start e0 dom c) evs) :=
    run_induction (TargetInBand h) evs
      (fun s ev hev hs => event_inBand h s ev hfit (henv ev hev) hs) _
      (start_inBand h e0 dom c hl hh hfit h0)
  refine ⟨inv.2.2, fun e s hl2 hh2 hph hgt hr0 hr1 => ?_⟩
  refine ⟨30 + e.random2 * 60, by linarith, by linarith, ?_⟩
  rw [(animateHook_jig e s hl2 hh2 hph).1]
  unfold jigRetarget
  dsimp only
  rw [if_pos hgt]
  exact ⟨rfl, rfl⟩

/-- Witness for C15: at 1200x800 on a full page, two frames and a key
press after start-up. -/
theorem hook_target_in_band_witness :
    (run (start (viewport 1200 800) fullDom false)
        [Event.frame (viewport 1200 800), Event.keydown (viewport 1200 800) "p",
          Event.frame (viewport 1200 800)]).hookState.phase = HookPhase.jig ∧
    (800 : ℚ) / 6 + 60 ≤ (run (start (viewport 1200 800) fullDom false)
        [Event.frame (viewport 1200 800), Event.keydown (viewport 1200 800) "p",
          Event.frame (viewport 1200 800)]).hookState.targetY ∧
    (run (start (viewport 1200 800) fullDom false)
        [Event.frame (viewport 1200 800), Event.keydown (viewport 1200 800) "p",
          Event.frame (viewport 1200 800)]).hookState.targetY ≤ 800 - 4 - 12 :=
  (hook_target_in_band 800 (viewport 1200 800) fullDom false
    [Event.frame (viewport 1200 800), Event.keydown (viewport 1200 800) "p",
      Event.frame (viewport 1200 800)] rfl rfl (by norm_num) rfl
    (by
      intro ev hev e he
      simp only [List.mem_cons, List.mem_singleton, List.not_mem_nil, or_false] at hev
      rcases hev with rfl | rfl | rfl <;>
        simp only [Event.env?, Option.some.injEq] at he <;>
        (subst he; norm_num [HookEnvOk, viewport]))).1

/-- C15 fails as stated: (a) the `hookState` the script declares has
`targetY = 0`, below `waterline + 60` at height 800; (b) in a 60px-high
viewport start-up sets `targetY = 60 - 34 = 26`, below
`waterline + 60 = 70`; (c) after start-up at height 800
(`targetY = 766`) a resize to height 600 leaves `targetY` above
`bottom - 12 = 584`; (d) at height 800 a re-target from a hook centre
measured at 1018 sets `targetY = 988`, above `bottom - 12 = 784`. -/
theorem hook_target_counterexample :
    ((initialState (viewport 1200 800) fullDom false).hookState.targetY = 0 ∧
      ¬ ((viewport 1200 800).innerHeight / 6 + 60 ≤
        (initialState (viewport 1200 800) fullDom false).hookState.targetY)) ∧
    ((start (viewport 1200 60) fullDom false).hookState.targetY = 26 ∧
      ¬ ((viewport 1200 60).innerHeight / 6 + 60 ≤
        (start (viewport 1200 60) fullDom false).hookState.targetY)) ∧
    ((run (start (viewport 1200 800) fullDom false)
        [Event.resize (viewport 1200 600)]).hookState.targetY = 766 ∧
      ¬ ((run (start (viewport 1200 800) fullDom false)
        [Event.resize (viewport 1200 600)]).hookState.targetY ≤
          (viewport 1200 600).innerHeight - 4 - 12)) ∧
    ((animateHook
        { viewport 1200 800 with
          now := 2000, hookRect := { left := 94, top := 1000, width := 24, height := 36 } }
        (start (viewport 1200 800) fullDom false)).hookState.targetY = 988 ∧
      ¬ ((animateHook
        { viewport 1200 800 with
          now := 2000, hookRect := { left := 94, top := 1000, width := 24, height := 36 } }
        (start (viewport 1200 800) fullDom false)).hookState.targetY ≤
          (viewport 1200 800).innerHeight - 4 - 12)) := by
  have ha : (initialState (viewport 1200 800) fullDom false).hookState.targetY = 0 := rfl
  have hb : (start (viewport 1200 60) fullDom false).hookState.targetY = 26 := by
    rw [start_hookState _ _ _ rfl rfl]
    norm_num [viewport]
  have hc : (run (start (viewport 1200 800) fullDom false)
      [Event.resize (viewport 1200 600)]).hookState.targetY = 766 := by
    show (resize (viewport 1200 600) (start (viewport 1200 800) fullDom false)).hookState.targetY
      = 766
    rw [(resize_sameRig _ _).2.1, start_hookState _ _ _ rfl rfl]
    norm_num [viewport]
  have hd : (animateHook
      { viewport 1200 800 with
        now := 2000, hookRect := { left := 94, top := 1000, width := 24, height := 36 } }
      (start (viewport 1200 800) fullDom false)).hookState.targetY = 988 := by
    rw [(animateHook_jig _ _ (by rw [start_dom]; rfl) (by rw [start_dom]; rfl)
      (by rw [start_hookState _ _ _ rfl rfl])).1, start_hookState _ _ _ rfl rfl]
    norm_num [jigRetarget, viewport]
  refine ⟨⟨ha, ?_⟩, ⟨hb, ?_⟩, ⟨hc, ?_⟩, ⟨hd, ?_⟩⟩
  · rw [ha]; norm_num [viewport]
  · rw [hb]; norm_num [viewport]
  · rw [hc]; norm_num [viewport]
  · rw [hd]; norm_num [viewport]

/-! ## Rod rotation easing -/

theorem ease_mono (t1 t2 d : ℚ) (hd : 0 < d) (h : t1 ≤ t2) :
    ease (min 1 (t1 / d)) ≤ ease (min 1 (t2 / d)) := by
  have hk : min 1 (t1 / d) ≤ min 1 (t2 / d) :=
    min_le_min le_rfl (div_le_div_of_nonneg_right h hd.le)
  have h2 : 0 ≤ 1 - min 1 (t2 / d) := sub_nonneg.mpr (min_le_left _ _)
  have hp : (1 - min 1 (t2 / d)) ^ 3 ≤ (1 - min 1 (t1 / d)) ^ 3 :=
    pow_le_pow_left₀ h2 (by linarith) 3
  unfold ease
  linarith

theorem ease_zero (d : ℚ) : ease (min 1 (0 / d)) = 0 := by
  simp [ease]

theorem ease_full (t d : ℚ) (hd : 0 < d) (h : d ≤ t) : ease (min 1 (t / d)) = 1 := by
  rw [min_eq_left ((one_le_div hd).mpr h)]
  simp [ease]

theorem ease_range (t d : ℚ) (hd : 0 < d) (h : 0 ≤ t) :
    0 ≤ ease (min 1 (t / d)) ∧ ease (min 1 (t / d)) ≤ 1 := by
  have h0 := ease_mono 0 t d hd h
  rw [ease_zero] at h0
  refine ⟨h0, ?_⟩
  have h2 : 0 ≤ 1 - min 1 (t / d) := sub_nonneg.mpr (min_le_left _ _)
  have := pow_nonneg h2 3
  unfold ease
  linarith

/-- C17: during a cast (in a state where a cast is under way only with the
rod group present, as is every state reachable from start-up, last
conjunct) `stepCast` sets the rod angle to `-35*ease(k)` in Windup, `-35 + 50*ease(k)` in Forward and `15 - 15*ease(k)` in Settle,
with `k = min(1, t/duration)`, `ease(k) = 1 - (1 - k)^3` and `t` the time
since the phase began. Each phase starts at its start angle (0, -35, 15)
at `t = 0`, is at its end angle (-35, 15, 0) for `t ≥ duration`, and is
monotone in `t` (falling in Windup and Settle, rising in Forward); the end
angle of each phase is the start angle of the next; for every `t ≥ 0` the
angle stays within `[-35, 15]`; and the call that returns the cast to Idle
sets the angle to exactly 0. -/
theorem rod_angle_easing (e : Env) (now : ℚ) (s : State) (hw : CastWired s) :
    (s.castPhase ≠ CastPhase.idle →
      (stepCast e now s).rodAngle = some (specRodAngle s.castPhase (now - s.castStartAt))) ∧
    (specRodAngle CastPhase.windup 0 = 0 ∧ specRodAngle CastPhase.forward 0 = -35 ∧
      specRodAngle CastPhase.settle 0 = 15) ∧
    (∀ t : ℚ, (380 ≤ t → specRodAngle CastPhase.windup t = -35) ∧
      (240 ≤ t → specRodAngle CastPhase.forward t = 15) ∧
      (280 ≤ t → specRodAngle CastPhase.settle t = 0)) ∧
    (∀ t1 t2 : ℚ, t1 ≤ t2 →
      specRodAngle CastPhase.windup t2 ≤ specRodAngle CastPhase.windup t1 ∧
      specRodAngle CastPhase.forward t1 ≤ specRodAngle CastPhase.forward t2 ∧
      specRodAngle CastPhase.settle t2 ≤ specRodAngle CastPhase.settle t1) ∧
    (∀ (ph : CastPhase) (t : ℚ), 0 ≤ t →
      -35 ≤ specRodAngle ph t ∧ specRodAngle ph t ≤ 15) ∧
    (s.castPhase = CastPhase.settle → 280 ≤ now - s.castStartAt →
      (stepCast e now s).castPhase = CastPhase.idle ∧
      (stepCast e now s).rodAngle = some 0) ∧
    (∀ (e0 : Env) (dom : Dom) (c : Bool) (evs : List Event),
      (run (start e0 dom c) evs).castPhase ≠ CastPhase.idle →
        (run (start e0 dom c) evs).rodGroup = true) := by
  refine ⟨fun hne => ?_, ?_, fun t => ⟨fun h => ?_, fun h => ?_, fun h => ?_⟩,
    fun t1 t2 h => ?_, fun ph t ht => ?_, fun hph h => ?_,
    fun e0 dom c evs => run_wired e0 dom c evs⟩
  · have hrod := hw hne
    cases hph : s.castPhase with
    | idle => exact absurd hph hne
    | windup =>
      rw [stepCast_windup e now s hrod hph]
      split_ifs <;> rfl
    | forward =>
      rw [stepCast_forward e now s hrod hph]
      split_ifs <;> rfl
    | settle =>
      rw [stepCast_settle e now s hrod hph]
      split_ifs with h
      · show some (0 : ℚ) = some (15 - 15 * ease (min 1 ((now - s.castStartAt) / 280)))
        rw [ease_full _ 280 (by norm_num) h]
        norm_num
      · rfl
  · unfold specRodAngle
    simp only [ease_zero]
    norm_num
  · show -35 * ease (min 1 (t / 380)) = -35
    rw [ease_full t 380 (by norm_num) h]; norm_num
  · show -35 + 50 * ease (min 1 (t / 240)) = 15
    rw [ease_full t 240 (by norm_num) h]; norm_num
  · show 15 - 15 * ease (min 1 (t / 280)) = 0
    rw [ease_full t 280 (by norm_num) h]; norm_num
  · have h1 := ease_mono t1 t2 380 (by norm_num) h
    have h2 := ease_mono t1 t2 240 (by norm_num) h
    have h3 := ease_mono t1 t2 280 (by norm_num) h
    unfold specRodAngle
    dsimp only
    refine ⟨by linarith, by linarith, by linarith⟩
  · cases ph with
    | idle => exact ⟨by norm_num [specRodAngle], by norm_num [specRodAngle]⟩
    | windup =>
      obtain ⟨h1, h2⟩ := ease_range t 380 (by norm_num) ht
      show -35 ≤ -35 * ease (min 1 (t / 380)) ∧ -35 * ease (min 1 (t / 380)) ≤ 15
      constructor <;> linarith
    | forward =>
      obtain ⟨h1, h2⟩ := ease_range t 240 (by norm_num) ht
      show -35 ≤ -35 + 50 * ease (min 1 (t / 240)) ∧ -35 + 50 * ease (min 1 (t / 240)) ≤ 15
      constructor <;> linarith
    | settle =>
      obtain ⟨h1, h2⟩ := ease_range t 280 (by norm_num) ht
      show -35 ≤ 15 - 15 * ease (min 1 (t / 280)) ∧ 15 - 15 * ease (min 1 (t / 280)) ≤ 15
      constructor <;> linarith
  · have hrod := hw (by rw [hph]; decide)
    rw [stepCast_settle e now s hrod hph, if_pos h]
    exact ⟨rfl, rfl⟩

/-- Witness for C17: a Windup begun at time 0, stepped at `now = 190`
(`k = 1/2`, `ease = 7/8`), and a Settle begun at 0 completed at 300. -/
theorem rod_angle_easing_witness :
    (stepCast (viewport 1200 800) 190 (castingAt CastPhase.windup 0)).rodAngle =
      some (specRodAngle (castingAt CastPhase.windup 0).castPhase
        (190 - (castingAt CastPhase.windup 0).castStartAt)) ∧
    ((stepCast (viewport 1200 800) 300 (castingAt CastPhase.settle 0)).castPhase
        = CastPhase.idle ∧
      (stepCast (viewport 1200 800) 300 (castingAt CastPhase.settle 0)).rodAngle = some 0) :=
  ⟨(rod_angle_easing (viewport 1200 800) 190 (castingAt CastPhase.windup 0)
      (fun _ => rfl)).1 (by decide),
    (rod_angle_easing (viewport 1200 800) 300 (castingAt CastPhase.settle 0)
      (fun _ => rfl)).2.2.2.2.2.1 rfl (by norm_num [castingAt])⟩

/-! ## Cast target X -/

theorem getBoatSectionIndex_range (e : Env) :
    0 ≤ getBoatSectionIndex e ∧ getBoatSectionIndex e ≤ 9 := by
  unfold getBoatSectionIndex
  dsimp only
  exact ⟨le_min (by norm_num) (le_max_left _ _), min_le_left _ _⟩

/-- C20 (as amended): for every viewport width `w ≥ 20` (the boat section
index always lies in 0..9), the Forward-phase target
`targetX = min((section + 2.5) * w/10, w - 20)` satisfies
`0 ≤ targetX ≤ w`, and equals the midpoint of section `section + 2`
whenever that midpoint is at most `w - 20`; and in the Forward call with
`k = 1` (time since phase start `≥ 240`) the hook's `left` is set to
`targetX - boatLeft - 16`. -/
theorem cast_target_on_screen (e : Env) (hw : 20 ≤ e.innerWidth) :
    (0 ≤ getBoatSectionIndex e ∧ getBoatSectionIndex e ≤ 9) ∧
    castTargetX e =
      min (((getBoatSectionIndex e : ℚ) + 2.5) * (e.innerWidth / 10)) (e.innerWidth - 20) ∧
    (0 ≤ castTargetX e ∧ castTargetX e ≤ e.innerWidth) ∧
    ((((getBoatSectionIndex e : ℚ) + 2) * (e.innerWidth / 10) +
        ((getBoatSectionIndex e : ℚ) + 2 + 1) * (e.innerWidth / 10)) / 2 ≤ e.innerWidth - 20 →
      castTargetX e =
        (((getBoatSectionIndex e : ℚ) + 2) * (e.innerWidth / 10) +
          ((getBoatSectionIndex e : ℚ) + 2 + 1) * (e.innerWidth / 10)) / 2) ∧
    (∀ (now : ℚ) (s : State), s.rodGroup = true → s.castPhase = CastPhase.forward →
      240 ≤ now - s.castStartAt →
      (stepCast e now s).hookLeft = some (castTargetX e - e.boatRect.left - 16)) := by
  have hsec := getBoatSectionIndex_range e
  have hsq : (0 : ℚ) ≤ (getBoatSectionIndex e : ℚ) := by exact_mod_cast hsec.1
  have hform : castTargetX e =
      min (((getBoatSectionIndex e : ℚ) + 2.5) * (e.innerWidth / 10)) (e.innerWidth - 20) := by
    unfold castTargetX
    dsimp only
    congr 2
    norm_num
    ring
  refine ⟨hsec, hform, ⟨?_, ?_⟩, fun hmid => ?_, fun now s hrod hph ht => ?_⟩
  · rw [hform]
    refine le_min ?_ (by linarith)
    have : 0 ≤ e.innerWidth / 10 := by linarith
    exact mul_nonneg (by linarith) this
  · rw [hform]
    exact le_trans (min_le_right _ _) (by linarith)
  · rw [hform, min_eq_left (by linarith)]
    ring
  · rw [stepCast_forward e now s hrod hph, if_pos ht]
    show some _ = some _
    congr 1
    rw [min_eq_left ((one_le_div (by norm_num)).mpr ht)]
    unfold castTargetX
    dsimp only
    ring

theorem getBoatSectionIndex_viewport : getBoatSectionIndex (viewport 1200 800) = 0 := by
  unfold getBoatSectionIndex
  dsimp only
  have h : ⌊((viewport 1200 800).boatRect.left + (viewport 1200 800).boatRect.width / 2) /
      (viewport 1200 800).innerWidth * ((10 : ℤ) : ℚ)⌋ = 0 := by
    rw [Int.floor_eq_iff]
    norm_num [viewport]
  rw [h]
  rfl

/-- Witness for C20: width 1200 with the boat centred at x = 80 (section
0): the target is the midpoint 300 of section 2, and a Forward phase begun
at time 0 and stepped at `now = 240` puts the hook's `left` at
`targetX - 0 - 16`. -/
theorem cast_target_on_screen_witness :
    (0 ≤ castTargetX (viewport 1200 800) ∧
      castTargetX (viewport 1200 800) ≤ (viewport 1200 800).innerWidth) ∧
    castTargetX (viewport 1200 800) =
      (((getBoatSectionIndex (viewport 1200 800) : ℚ) + 2) * ((viewport 1200 800).innerWidth / 10) +
        ((getBoatSectionIndex (viewport 1200 800) : ℚ) + 2 + 1) *
          ((viewport 1200 800).innerWidth / 10)) / 2 ∧
    (stepCast (viewport 1200 800) 240 (castingAt CastPhase.forward 0)).hookLeft =
      some (castTargetX (viewport 1200 800) - (viewport 1200 800).boatRect.left - 16) :=
  ⟨(cast_target_on_screen (viewport 1200 800) (by norm_num [viewport])).2.2.1,
    (cast_target_on_screen (viewport 1200 800) (by norm_num [viewport])).2.2.2.1
      (by rw [getBoatSectionIndex_viewport]; norm_num [viewport]),
    (cast_target_on_screen (viewport 1200 800) (by norm_num [viewport])).2.2.2.2
      240 (castingAt CastPhase.forward 0) rfl rfl (by norm_num [castingAt])⟩

/-- C20 fails as stated: in a viewport 10px wide (`w > 0`) the cap
`w - 20 = -10` makes `targetX` negative. -/
theorem cast_target_counterexample :
    0 < (viewport 10 800).innerWidth ∧ castTargetX (viewport 10 800) ≤ -10 ∧
      ¬ 0 ≤ castTargetX (viewport 10 800) := by
  have h : castTargetX (viewport 10 800) ≤ -10 := by
    unfold castTargetX
    dsimp only
    exact le_trans (min_le_right _ _) (by norm_num [viewport])
  exact ⟨by norm_num [viewport], h, by linarith⟩

/-! ## Closed-interval x invariant -/

theorem six_scale_le (e : Env) (hw : 40 ≤ e.innerWidth) : 6 * scale e ≤ e.innerWidth := by
  unfold scale
  rcases le_total (0.8 : ℚ) (min 2.0 (e.innerWidth / 1200)) with h | h
  · rw [max_eq_right h]
    have : min (2.0 : ℚ) (e.innerWidth / 1200) ≤ e.innerWidth / 1200 := min_le_right _ _
    linarith
  · rw [max_eq_left h]
    norm_num
    linarith

theorem wrapX_closed (e : Env) (x v : ℚ) (hx0 : 0 ≤ x) (hxw : x ≤ e.innerWidth)
    (hv : |v| ≤ e.innerWidth) : 0 ≤ wrapX e (x + v) ∧ wrapX e (x + v) ≤ e.innerWidth := by
  have hv2 := abs_le.mp hv
  unfold wrapX
  dsimp only
  split_ifs with h1 h2
  · constructor <;> linarith
  · constructor <;> linarith
  · push_neg at h1 h2
    exact ⟨h2, h1⟩

theorem loop_x_closed (e : Env) (s : State) (hx0 : 0 ≤ s.x) (hxw : s.x ≤ e.innerWidth)
    (hv : |s.speed| ≤ e.innerWidth) : 0 ≤ (loop e s).x ∧ (loop e s).x ≤ e.innerWidth := by
  cases hp : s.paused with
  | true => rw [loop_of_paused e s hp]; exact ⟨hx0, hxw⟩
  | false =>
    rw [loop_x e s hp]
    exact wrapX_closed e s.x s.speed hx0 hxw hv

theorem resize_x (e : Env) (s : State) : (resize e s).x = min s.x (e.innerWidth - 40) := by
  unfold resize
  dsimp only
  split_ifs <;> exact (updateSpeed_fields e _).2.2.2.1

theorem updateSpeed_speed_le (e : Env) (s : State) (hd : s.dir = 1 ∨ s.dir = -1)
    (hi : s.speedIndex ≤ 2) :
    |(updateSpeed e s).speed| ≤ 6 * scale e ∧ |(updateSpeed e s).speed| ≤ 12 := by
  have hsc := scale_bounds e
  have hpos := scale_pos e
  rw [(updateSpeed_fields e s).2.2.1]
  have hb : 0 ≤ BASE_SPEEDS.getD s.speedIndex 0 ∧ BASE_SPEEDS.getD s.speedIndex 0 ≤ 6 := by
    have := hi
    interval_cases s.speedIndex <;> norm_num [BASE_SPEEDS]
  have hprod : 0 ≤ BASE_SPEEDS.getD s.speedIndex 0 * scale e := mul_nonneg hb.1 hpos.le
  have hle : BASE_SPEEDS.getD s.speedIndex 0 * scale e ≤ 6 * scale e :=
    mul_le_mul_of_nonneg_right hb.2 hpos.le
  have habs : |(s.dir : ℚ) * (BASE_SPEEDS.getD s.speedIndex 0 * scale e)| =
      BASE_SPEEDS.getD s.speedIndex 0 * scale e := by
    rcases hd with h | h
    · rw [h, Int.cast_one, one_mul, abs_of_nonneg hprod]
    · rw [h, Int.cast_neg, Int.cast_one, neg_one_mul, abs_neg, abs_of_nonneg hprod]
  rw [habs]
  constructor
  · exact hle
  · norm_num at hsc
    linarith

theorem loop_speed_dir (e : Env) (s : State) :
    (loop e s).speed = s.speed ∧ (loop e s).dir = s.dir ∧ (loop e s).paused = s.paused := by
  cases hp : s.paused with
  | true => rw [loop_of_paused e s hp]; exact ⟨rfl, rfl, hp.symm ▸ rfl⟩
  | false =>
    rw [loop_unpaused e s hp]
    exact ⟨(animateHook_fish e _).2.2.2.1, (animateHook_fish e _).2.2.2.2.1,
      ((animateHook_fish e _).2.2.2.2.2.2.2).trans hp⟩

theorem loop_inView (w : ℚ) (e : Env) (s : State) (he : e.innerWidth = w) (hw : 40 ≤ w)
    (h : FishInView w s) : FishInView w (loop e s) := by
  obtain ⟨h0, h1, h2, h3, h4⟩ := h
  obtain ⟨hs, hd, _⟩ := loop_speed_dir e s
  have hx := loop_x_closed e s h0 (by rw [he]; exact h1) (by rw [he]; linarith)
  rw [he] at hx
  exact ⟨hx.1, hx.2, by rw [hs]; exact h2, by rw [hd]; exact h3,
    by rw [loop_speedIndex]; exact h4⟩

theorem updateSpeed_inView (w : ℚ) (e : Env) (t : State) (h0 : 0 ≤ t.x) (h1 : t.x ≤ w)
    (hd : t.dir = 1 ∨ t.dir = -1) (hi : t.speedIndex ≤ 2) :
    FishInView w (updateSpeed e t) := by
  obtain ⟨f1, f2, _, f4, _⟩ := updateSpeed_fields e t
  exact ⟨by rw [f4]; exact h0, by rw [f4]; exact h1, (updateSpeed_speed_le e t hd hi).2,
    by rw [f1]; exact hd, by rw [f2]; exact hi⟩

theorem start_fish (e : Env) (dom : Dom) (c : Bool) :
    (start e dom c).x = wrapX e (24 + scale e) ∧ (start e dom c).speed = scale e ∧
    (start e dom c).dir = 1 ∧ (start e dom c).paused = false := by
  have hu := updateSpeed_fields e (initialState e dom c)
  have hsp : (updateSpeed e (initialState e dom c)).speed = scale e := by
    rw [hu.2.2.1]
    show ((1 : ℤ) : ℚ) * (BASE_SPEEDS.getD 0 0 * scale e) = scale e
    norm_num [BASE_SPEEDS]
  have hx : (updateSpeed e (initialState e dom c)).x = 24 := hu.2.2.2.1
  have hp : (updateSpeed e (initialState e dom c)).paused = false := hu.2.2.2.2.2.2.2
  have hd : (updateSpeed e (initialState e dom c)).dir = 1 := hu.1
  have key : ∀ t : State, t.x = 24 → t.speed = scale e → t.dir = 1 → t.paused = false →
      (loop e t).x = wrapX e (24 + scale e) ∧ (loop e t).speed = scale e ∧
      (loop e t).dir = 1 ∧ (loop e t).paused = false := by
    intro t h1 h2 h3 h4
    obtain ⟨g1, g2, g3⟩ := loop_speed_dir e t
    exact ⟨by rw [loop_x e t h4, h1, h2], by rw [g1, h2], by rw [g2, h3], by rw [g3, h4]⟩
  unfold start
  dsimp only
  split_ifs
  · exact key _ hx hsp hd hp
  · exact key _ hx hsp hd hp

theorem start_inView (w : ℚ) (e : Env) (dom : Dom) (c : Bool) (he : e.innerWidth = w)
    (hw : 40 ≤ w) : FishInView w (start e dom c) := by
  obtain ⟨hx, hs, hd, _⟩ := start_fish e dom c
  have hsc := scale_bounds e
  norm_num at hsc
  have hpos := scale_pos e
  have hxc := wrapX_closed e 24 (scale e) (by norm_num) (by rw [he]; linarith)
    (by rw [abs_of_pos hpos, he]; linarith)
  rw [← hx, he] at hxc
  exact ⟨hxc.1, hxc.2, by rw [hs, abs_of_pos hpos]; linarith, Or.inl hd,
    by rw [start_speedIndex]; exact Nat.zero_le _⟩

theorem keydown_inView (w : ℚ) (e : Env) (key : String) (s : State)
    (h : FishInView w s) : FishInView w (keydown e key s) := by
  obtain ⟨h0, h1, h2, h3, h4⟩ := h
  by_cases hC : key = "C"
  · subst hC
    rw [keydown_C]
    exact ⟨h0, h1, h2, h3, h4⟩
  by_cases hsp : key = " "
  · subst hsp
    rw [keydown_space]
    split_ifs <;> exact ⟨h0, h1, h2, h3, h4⟩
  by_cases hp : key = "p"
  · subst hp
    rw [keydown_p]
    exact ⟨h0, h1, h2, h3, h4⟩
  by_cases hR : key = "ArrowRight"
  · subst hR
    rw [keydown_ArrowRight]
    split_ifs
    · exact updateSpeed_inView w e _ h0 h1 h3 (min_le_left _ _)
    · exact updateSpeed_inView w e _ h0 h1 h3 (le_trans (Nat.sub_le _ _) h4)
    · exact updateSpeed_inView w e _ h0 h1 (Or.inl rfl) (Nat.zero_le _)
  by_cases hL : key = "ArrowLeft"
  · subst hL
    rw [keydown_ArrowLeft]
    split_ifs
    · exact updateSpeed_inView w e _ h0 h1 h3 (min_le_left _ _)
    · exact updateSpeed_inView w e _ h0 h1 h3 (le_trans (Nat.sub_le _ _) h4)
    · exact updateSpeed_inView w e _ h0 h1 (Or.inr rfl) (Nat.zero_le _)
  rw [keydown_other e key s hC hsp hp hR hL]
  exact ⟨h0, h1, h2, h3, h4⟩

theorem keyup_inView (w : ℚ) (key : String) (s : State) (h : FishInView w s) :
    FishInView w (keyup key s) := by
  unfold keyup
  split_ifs
  · exact h
  · exact h

theorem resize_inView (w : ℚ) (e : Env) (s : State) (hw : 40 ≤ e.innerWidth)
    (h : FishInView w s) : FishInView e.innerWidth (resize e s) := by
  obtain ⟨h0, _, _, h3, h4⟩ := h
  obtain ⟨f1, f2, f3, _⟩ := resize_fields e s
  refine ⟨?_, ?_, ?_, by rw [f1]; exact h3, by rw [f2]; exact h4⟩
  · rw [resize_x]
    exact le_min h0 (by linarith)
  · rw [resize_x]
    exact le_trans (min_le_right _ _) (by linarith)
  · rw [f3, ← (updateSpeed_fields e s).2.2.1]
    exact (updateSpeed_speed_le e s h3 h4).2

theorem run_inView (evs : List Event) :
    ∀ (w : ℚ) (s : State), 40 ≤ w → FishInView w s → WidthsOk w evs →
      FishInView (widthAfter w evs) (run s evs) := by
  induction evs with
  | nil => intro w s _ h _; exact h
  | cons ev evs ih =>
    intro w s hw h hok
    cases ev with
    | keydown e key =>
      exact ih w _ hw (keydown_inView w e key s h) hok.2
    | keyup key =>
      exact ih w _ hw (keyup_inView w key s h) hok
    | frame e =>
      exact ih w _ hw (loop_inView w e s hok.1 hw h) hok.2
    | resize e =>
      exact ih e.innerWidth _ hok.1 (resize_inView w e s hok.1 h) hok.2

theorem frames_walk (k : ℕ) (hk : k ≤ 1175) :
    (run (start (viewport 1200 800) fullDom false)
        (List.replicate k (Event.frame (viewport 1200 800)))).x = 25 + (k : ℚ) ∧
    (run (start (viewport 1200 800) fullDom false)
        (List.replicate k (Event.frame (viewport 1200 800)))).speed = 1 ∧
    (run (start (viewport 1200 800) fullDom false)
        (List.replicate k (Event.frame (viewport 1200 800)))).paused = false := by
  have hsc : scale (viewport 1200 800) = 1 := by norm_num [scale, viewport]
  induction k with
  | zero =>
    obtain ⟨hx, hs, _, hp⟩ := start_fish (viewport 1200 800) fullDom false
    refine ⟨?_, by rw [← hsc]; exact hs, hp⟩
    show (start (viewport 1200 800) fullDom false).x = 25 + ((0 : ℕ) : ℚ)
    rw [hx, hsc]
    norm_num [wrapX, viewport]
  | succ k ih =>
    obtain ⟨hx, hs, hp⟩ := ih (by omega)
    have hk2 : (k : ℚ) ≤ 1174 := by exact_mod_cast (by omega : k ≤ 1174)
    have hk0 : (0 : ℚ) ≤ k := by exact_mod_cast Nat.zero_le k
    rw [List.replicate_succ', run, List.foldl_append]
    show (loop (viewport 1200 800) (run _ _)).x = _ ∧ (loop (viewport 1200 800) (run _ _)).speed = 1 ∧
      (loop (viewport 1200 800) (run _ _)).paused = false
    obtain ⟨g1, _, g3⟩ := loop_speed_dir (viewport 1200 800)
      (run (start (viewport 1200 800) fullDom false)
        (List.replicate k (Event.frame (viewport 1200 800))))
    refine ⟨?_, by rw [g1]; exact hs, by rw [g3]; exact hp⟩
    rw [loop_x _ _ hp, hx, hs]
    unfold wrapX viewport
    dsimp only
    rw [if_neg (by linarith), if_neg (by linarith)]
    push_cast
    ring

/-- C21: for a viewport width `w ≥ 40` the largest speed `6 * scale()` is
at most `w`; if `0 ≤ x ≤ w` then after a frame (`x := wrapX(x + speed)`
with `|speed| ≤ w`) `0 ≤ x ≤ w` again, and after a resize to any width
`w2 ≥ 40` (`x := min(x, w2 - 40)`) `0 ≤ x ≤ w2`; hence over a whole
session from start-up, in which every handler sees the width in force and
every resize is to a width of at least 40, the fish `x` stays within
`[0, current width]`. The value `x = width` itself is reached: at width
1200, 1175 frames after start-up the fish is at `x = 1200`, because
`wrapX` wraps only when `nx > w` strictly. -/
theorem x_closed_interval (e e2 : Env) (s : State) (hw : 40 ≤ e.innerWidth)
    (hw2 : 40 ≤ e2.innerWidth) (hx0 : 0 ≤ s.x) (hxw : s.x ≤ e.innerWidth) :
    6 * scale e ≤ e.innerWidth ∧
    (|s.speed| ≤ e.innerWidth → 0 ≤ (loop e s).x ∧ (loop e s).x ≤ e.innerWidth) ∧
    ((resize e2 s).x = min s.x (e2.innerWidth - 40) ∧
      0 ≤ (resize e2 s).x ∧ (resize e2 s).x ≤ e2.innerWidth) ∧
    (∀ (e0 : Env) (dom : Dom) (c : Bool) (evs : List Event), 40 ≤ e0.innerWidth →
      WidthsOk e0.innerWidth evs →
      0 ≤ (run (start e0 dom c) evs).x ∧
      (run (start e0 dom c) evs).x ≤ widthAfter e0.innerWidth evs) ∧
    ((run (start (viewport 1200 800) fullDom false)
        (List.replicate 1175 (Event.frame (viewport 1200 800)))).x =
      (viewport 1200 800).innerWidth ∧
      wrapX (viewport 1200 800) (1197 + 3) = (viewport 1200 800).innerWidth) := by
  refine ⟨six_scale_le e hw, loop_x_closed e s hx0 hxw, ⟨resize_x e2 s, ?_, ?_⟩,
    fun e0 dom c evs h0 hok => ?_, ?_, ?_⟩
  · rw [resize_x]
    exact le_min hx0 (by linarith)
  · rw [resize_x]
    exact le_trans (min_le_right _ _) (by linarith)
  · have h := run_inView evs e0.innerWidth (start e0 dom c) h0
      (start_inView e0.innerWidth e0 dom c rfl h0) hok
    exact ⟨h.1, h.2.1⟩
  · rw [(frames_walk 1175 le_rfl).1]
    norm_num [viewport]
  · norm_num [wrapX, viewport]

/-- Witness for C21: at width 1200 the fish at `x = 1197` with speed 3
(index 1) lands on `x = 1200` after one frame, and a resize to width 900
then moves it to `x = 860`. -/
theorem x_closed_interval_witness :
    (0 ≤ (loop (viewport 1200 800)
        { initialState (viewport 1200 800) fullDom false with
          x := 1197, speedIndex := 1, speed := 3 }).x ∧
      (loop (viewport 1200 800)
        { initialState (viewport 1200 800) fullDom false with
          x := 1197, speedIndex := 1, speed := 3 }).x ≤ (viewport 1200 800).innerWidth) ∧
    (resize (viewport 900 800)
        { initialState (viewport 1200 800) fullDom false with
          x := 1197, speedIndex := 1, speed := 3 }).x ≤ (viewport 900 800).innerWidth ∧
    (run (start (viewport 1200 800) fullDom false)
        [Event.frame (viewport 1200 800), Event.resize (viewport 900 800),
          Event.frame (viewport 900 800)]).x ≤
      widthAfter (viewport 1200 800).innerWidth
        [Event.frame (viewport 1200 800), Event.resize (viewport 900 800),
          Event.frame (viewport 900 800)] :=
  ⟨(x_closed_interval (viewport 1200 800) (viewport 900 800)
      { initialState (viewport 1200 800) fullDom false with
        x := 1197, speedIndex := 1, speed := 3 }
      (by norm_num [viewport]) (by norm_num [viewport]) (by norm_num [initialState])
      (by norm_num [initialState, viewport])).2.1
      (by norm_num [initialState, viewport, abs_le]),
    (x_closed_interval (viewport 1200 800) (viewport 900 800)
      { initialState (viewport 1200 800) fullDom false with
        x := 1197, speedIndex := 1, speed := 3 }
      (by norm_num [viewport]) (by norm_num [viewport]) (by norm_num [initialState])
      (by norm_num [initialState, viewport])).2.2.1.2.2,
    ((x_closed_interval (viewport 1200 800) (viewport 900 800)
      { initialState (viewport 1200 800) fullDom false with
        x := 1197, speedIndex := 1, speed := 3 }
      (by norm_num [viewport]) (by norm_num [viewport]) (by norm_num [initialState])
      (by norm_num [initialState, viewport])).2.2.2.1
      (viewport 1200 800) fullDom false
      [Event.frame (viewport 1200 800), Event.resize (viewport 900 800),
        Event.frame (viewport 900 800)]
      (by norm_num [viewport])
      ⟨rfl, by norm_num [viewport], rfl, trivial⟩).2⟩

end FdGame
